import Mathlib

/-!
Verification of the distinct-dates core (src/main.c): a stable bounded-range
counting sort, a nine-pass radix sort over date-time composite keys, a strict
ISO-8601 parser with timezone normalization via ranged carry arithmetic, and
adjacent-duplicate extraction over the sorted order.

The C code is shallowly embedded: C strings become `List Char` read through a
total `charAt` whose out-of-bounds value is the null terminator; C `unsigned int`
fields become `Nat`; C `int` arithmetic becomes `Int` (the calendar ranges keep
every intermediate value far from 32-bit overflow), with C `/` and `%` on `int`
being `Int.tdiv` / `Int.tmod`; functions that report failure through a `bool`
return either `Bool × _` (when the C function also leaves output in a caller
buffer) or `Option _`.
-/

/-- Models InRange (src/main.c lines 103-106): true iff value lies in [min, max]. -/
def InRange (value min max : Nat) : Bool :=
  decide (min ≤ value) && decide (value ≤ max)

/-- Signed variant used for the in-range test on the C `int` newVal inside
OffsetAndWrap (line 246); for the ranges in play the C unsigned conversion
agrees with the signed comparison. -/
def InRangeInt (value min max : Int) : Bool :=
  decide (min ≤ value) && decide (value ≤ max)

/-- Models the DateTime struct (src/main.c lines 109-116). -/
structure DateTime where
  year : Nat
  month : Nat
  day : Nat
  hour : Nat
  minute : Nat
  second : Nat
deriving DecidableEq, Repr

/-- Placeholder for reads that the C code never performs out of bounds. -/
def dtDefault : DateTime := ⟨0, 0, 0, 0, 0, 0⟩

/-- Models IsDateTimeValid (src/main.c lines 123-132). -/
def IsDateTimeValid (dateTime : DateTime) : Bool :=
  InRange dateTime.year 0 9999
    && InRange dateTime.month 1 12
    && InRange dateTime.day 1 31
    && InRange dateTime.hour 0 23
    && InRange dateTime.minute 0 59
    && InRange dateTime.second 0 59

/-- Models DateTimesEqual (src/main.c lines 163-175): field-by-field equality. -/
def DateTimesEqual (lhs rhs : DateTime) : Bool :=
  lhs.year == rhs.year
    && lhs.month == rhs.month
    && lhs.day == rhs.day
    && lhs.hour == rhs.hour
    && lhs.minute == rhs.minute
    && lhs.second == rhs.second

/-- Models DateTimeLessThan (src/main.c lines 181-223): lexicographic strict
comparison on (year, month, day, hour, minute, second). -/
def DateTimeLessThan (lhs rhs : DateTime) : Bool :=
  if lhs.year < rhs.year then true
  else if rhs.year < lhs.year then false
  else if lhs.month < rhs.month then true
  else if rhs.month < lhs.month then false
  else if lhs.day < rhs.day then true
  else if rhs.day < lhs.day then false
  else if lhs.hour < rhs.hour then true
  else if rhs.hour < lhs.hour then false
  else if lhs.minute < rhs.minute then true
  else if rhs.minute < lhs.minute then false
  else decide (lhs.second < rhs.second)

/-- Ascending order used to state sortedness: strictly less or equal. -/
def dtLe (lhs rhs : DateTime) : Prop :=
  DateTimeLessThan lhs rhs = true ∨ lhs = rhs

/-- Models OffsetAndWrap (src/main.c lines 228-268).  Adds offset to val wrapping
into [min, max]; returns the new value and the signed carry.  C `abs` becomes
`Int.natAbs`, C `int` division and remainder become `Int.tdiv` / `Int.tmod`. -/
def OffsetAndWrap (val : Nat) (offset : Int) (min max : Nat) : Nat × Int :=
  if !(InRange val min max) then (val, 0)
  else
    let tempVal : Int := (val : Int) - (min : Int)
    let tempMax : Int := (max : Int) - (min : Int)
    let newVal : Int := tempVal + offset
    if !(InRangeInt newVal 0 tempMax) then
      let carry : Int :=
        if newVal < 0 then -1 - ((newVal.natAbs : Int).tdiv (tempMax + 1))
        else newVal.tdiv (tempMax + 1)
      let newVal1 : Int := newVal.tmod (tempMax + 1)
      let newVal2 : Int := if newVal1 < 0 then (tempMax + 1) - (newVal1.natAbs : Int) else newVal1
      ((newVal2 + (min : Int)).toNat, carry)
    else ((newVal + (min : Int)).toNat, 0)

/-- Models OffsetDateTime (src/main.c lines 330-347): applies hour and minute
offsets, chaining the carries minute → hour → day → month → year; the carry out
of the year wrap is discarded.  Returns the validity flag of the result together
with the resulting DateTime. -/
def OffsetDateTime (dateTime : DateTime) (hours minutes : Int) : Bool × DateTime :=
  let rMinute := OffsetAndWrap dateTime.minute minutes 0 59
  let rHour := OffsetAndWrap dateTime.hour (hours + rMinute.2) 0 23
  let rDay := OffsetAndWrap dateTime.day (0 + rHour.2) 1 31
  let rMonth := OffsetAndWrap dateTime.month (0 + rDay.2) 1 12
  let rYear := OffsetAndWrap dateTime.year (0 + rMonth.2) 0 9999
  let result : DateTime := ⟨rYear.1, rMonth.1, rDay.1, rHour.1, rMinute.1, dateTime.second⟩
  (IsDateTimeValid result, result)

/-- Reading a C string at a position: past the end of the list the C buffer
holds the null terminator. -/
def charAt (s : List Char) (pos : Nat) : Char :=
  s.getD pos (Char.ofNat 0)

/-- The per-character test of CopyDigits (src/main.c line 357): the C code
rejects the null terminator and anything outside the ASCII digits; character
comparisons are on code points, i.e. `Char.toNat`. -/
def isDigitChar (c : Char) : Bool :=
  !(c.toNat == 0) && !(decide (c.toNat < 48)) && !(decide (57 < c.toNat))

/-- The digit value of a character, as computed by IntFromChars (line 430). -/
def digitVal (c : Char) : Nat :=
  c.toNat - 48

/-- Models CopyDigits (src/main.c lines 352-369) followed by IntFromChars
(lines 418-434): read `len` characters starting at `pos`, failing on any
non-digit, and fold them into a number.  IntFromChars cannot fail on the
characters CopyDigits accepted, so the two compose into one function. -/
def readDigits (s : List Char) : Nat → Nat → Nat → Option Nat
  | _, 0, acc => some acc
  | pos, len + 1, acc =>
    let c := charAt s pos
    if isDigitChar c then readDigits s (pos + 1) len (acc * 10 + digitVal c)
    else none

/-- Models ExpectChar (src/main.c lines 437-440). -/
def ExpectChar (s : List Char) (offset : Nat) (val : Char) : Bool :=
  charAt s offset == val

/-- Models C `isspace` in the default locale: space and the control characters
tab, newline, vertical tab, form feed, carriage return (code points 9-13). -/
def isSpaceChar (c : Char) : Bool :=
  c.toNat == 32 || (decide (9 ≤ c.toNat) && decide (c.toNat ≤ 13))

/-- Number of leading whitespace characters of a list. -/
def countLeadingSpaces : List Char → Nat
  | [] => 0
  | c :: rest => if isSpaceChar c then countLeadingSpaces rest + 1 else 0

/-- Models the whitespace-consuming while loop (src/main.c lines 571-573): the
loop advances while the current character is a space; past the end of the list
it reads the null terminator, which is not a space, so it stops there. -/
def skipSpaces (s : List Char) (pos : Nat) : Nat :=
  pos + countLeadingSpaces (s.drop pos)

/-- The tail of the parser (src/main.c lines 570-580): consume trailing
whitespace, expect the null terminator, and return the DateTime if it is
valid. -/
def finishParse (s : List Char) (pos : Nat) (dateTime : DateTime) : Option DateTime :=
  if !(ExpectChar s (skipSpaces s pos) (Char.ofNat 0)) then none
  else if IsDateTimeValid dateTime then some dateTime else none

/-- Models PopulateDateTimeFromIsoString (src/main.c lines 449-581).  The C
seekPos is threaded through fixed-width fields, so every position is a
constant: year 0-3, `-` 4, month 5-6, `-` 7, day 8-9, `T` 10, hour 11-12,
`:` 13, minute 14-15, `:` 16, second 17-18, designator 19, and for `+`/`-`
the offset hour 20-21, `:` 22, offset minute 23-24.  Failure returns `none`
(the C function returns false and the caller discards the partially written
output struct). -/
def PopulateDateTimeFromIsoString (isoString : List Char) : Option DateTime :=
  match readDigits isoString 0 4 0 with
  | none => none
  | some year =>
  if !(ExpectChar isoString 4 '-') then none else
  match readDigits isoString 5 2 0 with
  | none => none
  | some month =>
  if !(ExpectChar isoString 7 '-') then none else
  match readDigits isoString 8 2 0 with
  | none => none
  | some day =>
  if !(ExpectChar isoString 10 'T') then none else
  match readDigits isoString 11 2 0 with
  | none => none
  | some hour =>
  if !(ExpectChar isoString 13 ':') then none else
  match readDigits isoString 14 2 0 with
  | none => none
  | some minute =>
  if !(ExpectChar isoString 16 ':') then none else
  match readDigits isoString 17 2 0 with
  | none => none
  | some second =>
  let dateTime : DateTime := ⟨year, month, day, hour, minute, second⟩
  let tzd := charAt isoString 19
  if tzd == '+' || tzd == '-' then
    match readDigits isoString 20 2 0 with
    | none => none
    | some tzHourOffset =>
    if !(InRange tzHourOffset 0 23) then none else
    if !(ExpectChar isoString 22 ':') then none else
    match readDigits isoString 23 2 0 with
    | none => none
    | some tzMinuteOffset =>
    if !(InRange tzMinuteOffset 0 59) then none else
    let hours : Int := if tzd == '-' then -(tzHourOffset : Int) else (tzHourOffset : Int)
    let minutes : Int := if tzd == '-' then -(tzMinuteOffset : Int) else (tzMinuteOffset : Int)
    let r := OffsetDateTime dateTime hours minutes
    if !r.1 then none else
    finishParse isoString 25 r.2
  else if tzd == 'Z' then
    finishParse isoString 20 dateTime
  else none

/-- The character for a decimal digit, as produced by printf. -/
def digitChar (n : Nat) : Char :=
  Char.ofNat (48 + n)

/-- Two-digit zero-padded rendering, the printf `%02d` conversion on an
in-range (two-digit) value. -/
def pad2 (n : Nat) : List Char :=
  [digitChar (n / 10 % 10), digitChar (n % 10)]

/-- Four-digit zero-padded rendering, the printf `%04d` conversion on an
in-range (four-digit) value. -/
def pad4 (n : Nat) : List Char :=
  [digitChar (n / 1000 % 10), digitChar (n / 100 % 10), digitChar (n / 10 % 10), digitChar (n % 10)]

/-- The 19-character date-time body `YYYY-MM-DDThh:mm:ss` of the rendering
used by PrintDateTime (src/main.c lines 135-146). -/
def renderDate (dateTime : DateTime) : List Char :=
  pad4 dateTime.year
    ++ '-' :: (pad2 dateTime.month
    ++ '-' :: (pad2 dateTime.day
    ++ 'T' :: (pad2 dateTime.hour
    ++ ':' :: (pad2 dateTime.minute
    ++ ':' :: pad2 dateTime.second))))

/-- The Z-suffixed rendering `%04d-%02d-%02dT%02d:%02d:%02dZ` of PrintDateTime
(src/main.c lines 135-146), without the trailing newline. -/
def renderDateTime (dateTime : DateTime) : List Char :=
  renderDate dateTime ++ ['Z']

/-- A rendering carrying an explicit timezone offset designator instead of `Z`. -/
def renderWithOffset (dateTime : DateTime) (sign : Char) (h m : Nat) : List Char :=
  renderDate dateTime ++ sign :: (pad2 h ++ ':' :: pad2 m)

/-- Pointwise update of the histogram array of CountSort. -/
def histUpdate (h : Nat → Nat) (v : Nat) (f : Nat → Nat) : Nat → Nat :=
  fun x => if x = v then f (h v) else h x

/-- The histogram-building loop of CountSort (src/main.c lines 30-39): count
digit frequencies, failing as the C code does when a digit exceeds maxValue. -/
def buildHist (d : Nat → Nat) (maxValue : Nat) : List Nat → (Nat → Nat) → Option (Nat → Nat)
  | [], h => some h
  | k :: ks, h =>
    if maxValue < d k then none
    else buildHist d maxValue ks (histUpdate h (d k) (fun c => c + 1))

/-- The prefix-sum loop of CountSort (src/main.c lines 43-45):
histogram[i] := histogram[i-1] + histogram[i] for i = 1..maxValue. -/
def prefixSum (h : Nat → Nat) : Nat → Nat → Nat
  | 0 => h
  | i + 1 =>
    let h1 := prefixSum h i
    histUpdate h1 (i + 1) (fun c => h1 i + c)

/-- The placement loop of CountSort (src/main.c lines 49-57): scan the keys in
reverse, placing each key at histogram[digit] - 1 and decrementing that
histogram entry.  The recursion processes the tail before the head, so the head
of the list is handled last, exactly like the reverse C iteration. -/
def placeLoop (d : Nat → Nat) : List Nat → (Nat → Nat) → List Nat → ((Nat → Nat) × List Nat)
  | [], h, out => (h, out)
  | k :: ks, h, out =>
    let r := placeLoop d ks h out
    (histUpdate r.1 (d k) (fun c => c - 1), r.2.set (r.1 (d k) - 1) k)

/-- Models CountSort (src/main.c lines 21-61) for non-null inputs: on failure
the C function returns false before the placement loop runs, leaving the
caller's output buffer untouched. -/
def CountSort (values : α) (valueSelector : α → Nat → Nat) (maxValue : Nat)
    (keys outKeys : List Nat) : Bool × List Nat :=
  match buildHist (valueSelector values) maxValue keys (fun _ => 0) with
  | none => (false, outKeys)
  | some h => (true, (placeLoop (valueSelector values) keys (prefixSum h maxValue) outKeys).2)

/-- Models CountSort including the null checks on values and valueSelector
(src/main.c lines 23-25): an absent input fails before anything is written. -/
def CountSortC (values : Option α) (valueSelector : Option (α → Nat → Nat)) (maxValue : Nat)
    (keys outKeys : List Nat) : Bool × List Nat :=
  match values, valueSelector with
  | some vs, some sel => CountSort vs sel maxValue keys outKeys
  | _, _ => (false, outKeys)

/-- Models SecondSelector (src/main.c lines 649-652). -/
def SecondSelector (dateTimeValues : List DateTime) (key : Nat) : Nat :=
  (dateTimeValues.getD key dtDefault).second

/-- Models MinuteSelector (src/main.c lines 654-657). -/
def MinuteSelector (dateTimeValues : List DateTime) (key : Nat) : Nat :=
  (dateTimeValues.getD key dtDefault).minute

/-- Models HourSelector (src/main.c lines 659-662). -/
def HourSelector (dateTimeValues : List DateTime) (key : Nat) : Nat :=
  (dateTimeValues.getD key dtDefault).hour

/-- Models DaySelector (src/main.c lines 664-667). -/
def DaySelector (dateTimeValues : List DateTime) (key : Nat) : Nat :=
  (dateTimeValues.getD key dtDefault).day

/-- Models MonthSelector (src/main.c lines 669-672). -/
def MonthSelector (dateTimeValues : List DateTime) (key : Nat) : Nat :=
  (dateTimeValues.getD key dtDefault).month

/-- Models YearLSDSelector (src/main.c lines 674-678). -/
def YearLSDSelector (dateTimeValues : List DateTime) (key : Nat) : Nat :=
  (dateTimeValues.getD key dtDefault).year % 10

/-- Models YearDecadeSelector (src/main.c lines 680-684). -/
def YearDecadeSelector (dateTimeValues : List DateTime) (key : Nat) : Nat :=
  (dateTimeValues.getD key dtDefault).year / 10 % 10

/-- Models YearCenturySelector (src/main.c lines 686-690). -/
def YearCenturySelector (dateTimeValues : List DateTime) (key : Nat) : Nat :=
  (dateTimeValues.getD key dtDefault).year / 100 % 10

/-- Models YearMilleniumSelector (src/main.c lines 692-696). -/
def YearMilleniumSelector (dateTimeValues : List DateTime) (key : Nat) : Nat :=
  (dateTimeValues.getD key dtDefault).year / 1000 % 10

/-- Models SortDateTimes (src/main.c lines 723-790): nine chained CountSort
passes from least- to most-significant field.  The initial key array is
0..count-1; the caller's output buffer is zero-initialized (the in-repo callers
calloc it); after each pass the C code memcpys outKeys over keys, so each later
pass sorts the previous output into the same buffer. -/
def SortDateTimes (dateTimes : List DateTime) : Option (List Nat) :=
  let count := dateTimes.length
  let keys := List.range count
  let r1 := CountSort dateTimes SecondSelector 59 keys (List.replicate count 0)
  if !r1.1 then none else
  let r2 := CountSort dateTimes MinuteSelector 59 r1.2 r1.2
  if !r2.1 then none else
  let r3 := CountSort dateTimes HourSelector 23 r2.2 r2.2
  if !r3.1 then none else
  let r4 := CountSort dateTimes DaySelector 31 r3.2 r3.2
  if !r4.1 then none else
  let r5 := CountSort dateTimes MonthSelector 12 r4.2 r4.2
  if !r5.1 then none else
  let r6 := CountSort dateTimes YearLSDSelector 9 r5.2 r5.2
  if !r6.1 then none else
  let r7 := CountSort dateTimes YearDecadeSelector 9 r6.2 r6.2
  if !r7.1 then none else
  let r8 := CountSort dateTimes YearCenturySelector 9 r7.2 r7.2
  if !r8.1 then none else
  let r9 := CountSort dateTimes YearMilleniumSelector 9 r8.2 r8.2
  if !r9.1 then none else some r9.2

/-- The body of the duplicate-skipping scan of DistinctDateTimes (src/main.c
lines 852-864): each element is kept unless its DateTime equals the DateTime of
the immediately preceding element of the sorted key list. -/
def dedupGo (dateTimes : List DateTime) : Nat → List Nat → List Nat
  | _, [] => []
  | prev, k :: rest =>
    if DateTimesEqual (dateTimes.getD prev dtDefault) (dateTimes.getD k dtDefault) then
      dedupGo dateTimes k rest
    else k :: dedupGo dateTimes k rest

/-- The duplicate-skipping scan, starting from the first sorted key, which is
always kept. -/
def dedupAdjacent (dateTimes : List DateTime) : List Nat → List Nat
  | [] => []
  | k :: rest => k :: dedupGo dateTimes k rest

/-- Models DistinctDateTimes (src/main.c lines 840-871): sort, then scan the
sorted keys skipping adjacent equal DateTimes; the reported count is the number
of kept keys.  Sort failure surfaces as failure with no distinct count. -/
def DistinctDateTimes (dateTimes : List DateTime) : Option (List Nat × Nat) :=
  match SortDateTimes dateTimes with
  | none => none
  | some sortedKeys =>
    let outKeys := dedupAdjacent dateTimes sortedKeys
    some (outKeys, outKeys.length)

/-- Specification-side count: how many keys of ks have digit exactly v. -/
def cntEq (d : Nat → Nat) (v : Nat) (ks : List Nat) : Nat :=
  ks.countP (fun k => d k == v)

/-- Specification-side count: how many keys of ks have digit below v. -/
def cntLt (d : Nat → Nat) (v : Nat) (ks : List Nat) : Nat :=
  ks.countP (fun k => decide (d k < v))

/-- The keys of ks with digit exactly v, in their input order. -/
def filterDigit (d : Nat → Nat) (v : Nat) (ks : List Nat) : List Nat :=
  ks.filter (fun k => d k == v)

/-- Concatenation of the equal-digit blocks for all digits below m, in digit
order: the reference stable sort result. -/
def digitBlocks (d : Nat → Nat) (ks : List Nat) : Nat → List Nat
  | 0 => []
  | v + 1 => digitBlocks d ks v ++ filterDigit d v ks

/-- The stable ascending-by-digit reordering of ks, digits bounded by maxValue. -/
def stableSorted (d : Nat → Nat) (maxValue : Nat) (ks : List Nat) : List Nat :=
  digitBlocks d ks (maxValue + 1)

/-- Sum of h over 0..v, the value of the histogram prefix sums. -/
def sumTo (h : Nat → Nat) : Nat → Nat
  | 0 => h 0
  | v + 1 => sumTo h v + h (v + 1)

/-- One stable sorting pass by digit d refines a pre-order R on keys into
the lexicographic combination: first the digit, ties broken by R. -/
def liftRel (d : Nat → Nat) (R : Nat → Nat → Prop) (a b : Nat) : Prop :=
  d a < d b ∨ (d a = d b ∧ R a b)

/-- The order produced by the nine radix passes of SortDateTimes, built by
lifting through the pass digits from least significant (innermost) to most
significant (outermost). -/
def radixRel (dateTimes : List DateTime) : Nat → Nat → Prop :=
  liftRel (YearMilleniumSelector dateTimes)
    (liftRel (YearCenturySelector dateTimes)
      (liftRel (YearDecadeSelector dateTimes)
        (liftRel (YearLSDSelector dateTimes)
          (liftRel (MonthSelector dateTimes)
            (liftRel (DaySelector dateTimes)
              (liftRel (HourSelector dateTimes)
                (liftRel (MinuteSelector dateTimes)
                  (liftRel (SecondSelector dateTimes) fun _ _ => True))))))))

/-! ### Counting lemmas -/

theorem cntEq_nil (d : Nat → Nat) (v : Nat) : cntEq d v [] = 0 := rfl

theorem cntEq_cons (d : Nat → Nat) (v k : Nat) (ks : List Nat) :
    cntEq d v (k :: ks) = cntEq d v ks + (if d k = v then 1 else 0) := by
  simp [cntEq, List.countP_cons]

theorem cntEq_le_cons (d : Nat → Nat) (v k : Nat) (ks : List Nat) :
    cntEq d v ks ≤ cntEq d v (k :: ks) := by
  rw [cntEq_cons]; omega

theorem cntLt_zero (d : Nat → Nat) (ks : List Nat) : cntLt d 0 ks = 0 := by
  simp [cntLt]

theorem cntLt_succ (d : Nat → Nat) (v : Nat) (ks : List Nat) :
    cntLt d (v + 1) ks = cntLt d v ks + cntEq d v ks := by
  induction ks with
  | nil => rfl
  | cons k ks ih =>
    simp only [cntLt, cntEq, List.countP_cons, decide_eq_true_eq, beq_iff_eq] at ih ⊢
    rw [ih]
    split_ifs <;> omega

theorem cntLt_mono (d : Nat → Nat) {v w : Nat} (h : v ≤ w) (ks : List Nat) :
    cntLt d v ks ≤ cntLt d w ks := by
  refine List.countP_mono_left fun k _ hk => ?_
  simp only [decide_eq_true_eq] at *
  omega

theorem cntEq_le_cntLt_succ (d : Nat → Nat) (v : Nat) (ks : List Nat) :
    cntEq d v ks ≤ cntLt d (v + 1) ks := by
  rw [cntLt_succ]
  exact Nat.le_add_left _ _

theorem cntLt_le_length (d : Nat → Nat) (v : Nat) (ks : List Nat) :
    cntLt d v ks ≤ ks.length := by
  simp only [cntLt]
  exact List.countP_le_length _

theorem cntEq_eq_zero_of_gt (d : Nat → Nat) {maxValue v : Nat} {ks : List Nat}
    (hb : ∀ k ∈ ks, d k ≤ maxValue) (hv : maxValue < v) : cntEq d v ks = 0 := by
  simp only [cntEq, List.countP_eq_zero]
  intro k hk
  have := hb k hk
  simp only [beq_iff_eq]
  omega

theorem cntLt_eq_length (d : Nat → Nat) {maxValue : Nat} {ks : List Nat}
    (hb : ∀ k ∈ ks, d k ≤ maxValue) : cntLt d (maxValue + 1) ks = ks.length := by
  simp only [cntLt, List.countP_eq_length]
  intro k hk
  have := hb k hk
  simp only [decide_eq_true_eq]
  omega

theorem filterDigit_nil (d : Nat → Nat) (v : Nat) : filterDigit d v [] = [] := rfl

theorem filterDigit_cons_eq (d : Nat → Nat) {v k : Nat} (ks : List Nat) (h : d k = v) :
    filterDigit d v (k :: ks) = k :: filterDigit d v ks := by
  simp [filterDigit, List.filter_cons, h]

theorem filterDigit_cons_ne (d : Nat → Nat) {v k : Nat} (ks : List Nat) (h : d k ≠ v) :
    filterDigit d v (k :: ks) = filterDigit d v ks := by
  simp [filterDigit, List.filter_cons, h]

theorem filterDigit_length (d : Nat → Nat) (v : Nat) (ks : List Nat) :
    (filterDigit d v ks).length = cntEq d v ks := by
  simp [filterDigit, cntEq, List.countP_eq_length_filter]

theorem mem_filterDigit (d : Nat → Nat) {v a : Nat} {ks : List Nat}
    (h : a ∈ filterDigit d v ks) : a ∈ ks ∧ d a = v := by
  simp only [filterDigit, List.mem_filter, beq_iff_eq] at h
  exact h

/-! ### Histogram construction -/

theorem buildHist_some (d : Nat → Nat) (maxValue : Nat) :
    ∀ (ks : List Nat) (h : Nat → Nat), (∀ k ∈ ks, d k ≤ maxValue) →
      buildHist d maxValue ks h = some (fun v => h v + cntEq d v ks) := by
  intro ks
  induction ks with
  | nil =>
    intro h _
    simp only [buildHist, cntEq_nil]
    rfl
  | cons k ks ih =>
    intro h hb
    have hk : d k ≤ maxValue := hb k (by simp)
    rw [buildHist, if_neg (by omega)]
    rw [ih _ (fun x hx => hb x (by simp [hx]))]
    congr 1
    funext v
    simp only [histUpdate, cntEq_cons]
    by_cases hv : v = d k
    · subst hv
      simp
      omega
    · have : d k ≠ v := fun h => hv h.symm
      simp [hv, this]

theorem buildHist_none (d : Nat → Nat) (maxValue : Nat) :
    ∀ (ks : List Nat) (h : Nat → Nat), (∃ k ∈ ks, maxValue < d k) →
      buildHist d maxValue ks h = none := by
  intro ks
  induction ks with
  | nil => intro h hex; simp at hex
  | cons k ks ih =>
    intro h hex
    by_cases hk : maxValue < d k
    · rw [buildHist, if_pos hk]
    · rw [buildHist, if_neg hk]
      rcases hex with ⟨x, hx, hxv⟩
      rcases List.mem_cons.mp hx with rfl | hx
      · omega
      · exact ih _ ⟨x, hx, hxv⟩

/-! ### Prefix sums -/

theorem prefixSum_eq (h : Nat → Nat) :
    ∀ m v : Nat, prefixSum h m v = if v ≤ m then sumTo h v else h v := by
  intro m
  induction m with
  | zero =>
    intro v
    rcases Nat.eq_zero_or_pos v with rfl | hv
    · simp [prefixSum, sumTo]
    · rw [prefixSum, if_neg (by omega)]
  | succ m ih =>
    intro v
    simp only [prefixSum, histUpdate]
    by_cases hv : v = m + 1
    · subst hv
      rw [if_pos rfl, if_pos (Nat.le_refl _), sumTo, ih m, ih (m + 1),
        if_pos (Nat.le_refl _), if_neg (by omega)]
    · rw [if_neg hv, ih v]
      by_cases hvm : v ≤ m
      · rw [if_pos hvm, if_pos (by omega)]
      · rw [if_neg hvm, if_neg (by omega)]

theorem sumTo_cntEq (d : Nat → Nat) (ks : List Nat) :
    ∀ v, sumTo (fun w => cntEq d w ks) v = cntLt d (v + 1) ks := by
  intro v
  induction v with
  | zero => rw [sumTo, cntLt_succ, cntLt_zero, Nat.zero_add]
  | succ v ih => rw [sumTo, ih, cntLt_succ d (v + 1)]

/-! ### The placement loop -/

theorem placeLoop_hist (d : Nat → Nat) :
    ∀ (ks : List Nat) (h : Nat → Nat) (out : List Nat) (v : Nat),
      (placeLoop d ks h out).1 v = h v - cntEq d v ks := by
  intro ks
  induction ks with
  | nil => intro h out v; simp [placeLoop, cntEq_nil]
  | cons k ks ih =>
    intro h out v
    simp only [placeLoop, histUpdate]
    by_cases hv : v = d k
    · subst hv
      rw [if_pos rfl, ih, cntEq_cons, if_pos rfl]
      omega
    · rw [if_neg hv, ih, cntEq_cons, if_neg (fun h => hv h.symm)]
      omega

theorem placeLoop_length (d : Nat → Nat) :
    ∀ (ks : List Nat) (h : Nat → Nat) (out : List Nat),
      (placeLoop d ks h out).2.length = out.length := by
  intro ks
  induction ks with
  | nil => intro h out; rfl
  | cons k ks ih =>
    intro h out
    simp only [placeLoop, List.length_set]
    exact ih h out

theorem placeLoop_spec (d : Nat → Nat) :
    ∀ (ks : List Nat) (h : Nat → Nat) (out : List Nat),
      (∀ v, cntEq d v ks ≤ h v) →
      (∀ v, h v ≤ out.length) →
      (∀ v w, v < w → cntEq d w ks ≠ 0 → h v ≤ h w - cntEq d w ks) →
      (∀ v i, i < cntEq d v ks →
          (placeLoop d ks h out).2[h v - cntEq d v ks + i]? = (filterDigit d v ks)[i]?)
      ∧ (∀ p, (∀ v, p < h v - cntEq d v ks ∨ h v ≤ p) →
          (placeLoop d ks h out).2[p]? = out[p]?) := by
  intro ks
  induction ks with
  | nil =>
    intro h out _ _ _
    refine ⟨fun v i hi => ?_, fun p _ => rfl⟩
    rw [cntEq_nil] at hi
    omega
  | cons k ks ih =>
    intro h out hb hlen hdisj
    have hbk : cntEq d (d k) ks + 1 ≤ h (d k) := by
      have := hb (d k)
      rw [cntEq_cons, if_pos rfl] at this
      omega
    have hb2 : ∀ v, cntEq d v ks ≤ h v := fun v =>
      Nat.le_trans (cntEq_le_cons d v k ks) (hb v)
    have hdisj2 : ∀ v w, v < w → cntEq d w ks ≠ 0 → h v ≤ h w - cntEq d w ks := by
      intro v w hvw hw
      have h1 : cntEq d w (k :: ks) ≠ 0 := by
        have := cntEq_le_cons d w k ks
        omega
      have h2 := hdisj v w hvw h1
      have := cntEq_le_cons d w k ks
      omega
    obtain ⟨ihA, ihB⟩ := ih h out hb2 hlen hdisj2
    have hres : (placeLoop d (k :: ks) h out).2
        = (placeLoop d ks h out).2.set ((placeLoop d ks h out).1 (d k) - 1) k := rfl
    have hplh : (placeLoop d ks h out).1 (d k) = h (d k) - cntEq d (d k) ks :=
      placeLoop_hist d ks h out (d k)
    have hlen2 : (placeLoop d ks h out).2.length = out.length := placeLoop_length d ks h out
    have hl1 := hlen (d k)
    constructor
    · intro v i hi
      rw [hres, hplh]
      by_cases hv : v = d k
      · subst hv
        rw [cntEq_cons, if_pos rfl] at hi ⊢
        rw [filterDigit_cons_eq d ks rfl]
        rcases Nat.eq_zero_or_pos i with rfl | hipos
        · rw [List.getElem?_set, if_pos (by omega), if_pos (by omega)]
          simp
        · obtain ⟨j, rfl⟩ : ∃ j, i = j + 1 := ⟨i - 1, by omega⟩
          rw [List.getElem?_set, if_neg (by omega)]
          have hidx : h (d k) - (cntEq d (d k) ks + 1) + (j + 1)
              = h (d k) - cntEq d (d k) ks + j := by omega
          rw [hidx]
          have hgoal := ihA (d k) j (by omega)
          rw [hgoal]
          simp
      · have hvne : d k ≠ v := fun hcontra => hv hcontra.symm
        rw [cntEq_cons, if_neg hvne, Nat.add_zero] at hi ⊢
        rw [filterDigit_cons_ne d ks hvne]
        have hcv := hb2 v
        rcases Nat.lt_or_ge v (d k) with hlt | hge
        · have hsep := hdisj v (d k) hlt (by rw [cntEq_cons, if_pos rfl]; omega)
          rw [cntEq_cons, if_pos rfl] at hsep
          rw [List.getElem?_set, if_neg (by omega)]
          exact ihA v i hi
        · have hlt2 : d k < v := by omega
          have hsep := hdisj (d k) v hlt2 (by rw [cntEq_cons, if_neg hvne]; omega)
          rw [cntEq_cons, if_neg hvne, Nat.add_zero] at hsep
          rw [List.getElem?_set, if_neg (by omega)]
          exact ihA v i hi
    · intro p hp
      rw [hres, hplh]
      have hpk := hp (d k)
      rw [cntEq_cons, if_pos rfl] at hpk
      rw [List.getElem?_set, if_neg (by omega)]
      refine ihB p fun v => ?_
      have hpv := hp v
      have := cntEq_le_cons d v k ks
      omega

theorem placeLoop_stableSorted (d : Nat → Nat) (maxValue : Nat) (keys outKeys : List Nat)
    (H : Nat → Nat)
    (hH : ∀ v, H v = if v ≤ maxValue then cntLt d (v + 1) keys else cntEq d v keys)
    (hb : ∀ k ∈ keys, d k ≤ maxValue)
    (hlen : outKeys.length = keys.length) :
    (placeLoop d keys H outKeys).2 = stableSorted d maxValue keys := by
  have hb1 : ∀ v, cntEq d v keys ≤ H v := by
    intro v
    rw [hH v]
    by_cases hv : v ≤ maxValue
    · rw [if_pos hv]
      exact cntEq_le_cntLt_succ d v keys
    · rw [if_neg hv]
  have hlen1 : ∀ v, H v ≤ outKeys.length := by
    intro v
    rw [hH v]
    by_cases hv : v ≤ maxValue
    · rw [if_pos hv, hlen]
      exact cntLt_le_length d (v + 1) keys
    · rw [if_neg hv, cntEq_eq_zero_of_gt d hb (by omega)]
      exact Nat.zero_le _
  have hdisj1 : ∀ v w, v < w → cntEq d w keys ≠ 0 → H v ≤ H w - cntEq d w keys := by
    intro v w hvw hne
    have hwle : w ≤ maxValue := by
      by_contra hgt
      exact hne (cntEq_eq_zero_of_gt d hb (by omega))
    rw [hH v, hH w, if_pos hwle, if_pos (by omega), cntLt_succ d w keys]
    have h1 : cntLt d (v + 1) keys ≤ cntLt d w keys := cntLt_mono d (by omega) keys
    omega
  obtain ⟨hA, _⟩ := placeLoop_spec d keys H outKeys hb1 hlen1 hdisj1
  have hRlen : (placeLoop d keys H outKeys).2.length = keys.length := by
    rw [placeLoop_length]
    exact hlen
  have htile : ∀ m, m ≤ maxValue + 1 →
      (placeLoop d keys H outKeys).2.take (cntLt d m keys) = digitBlocks d keys m := by
    intro m
    induction m with
    | zero =>
      intro _
      rw [cntLt_zero]
      rfl
    | succ m ihm =>
      intro hm
      have hmle : m ≤ maxValue := by omega
      rw [cntLt_succ, List.take_add, ihm (by omega), digitBlocks]
      congr 1
      apply List.ext_getElem?
      intro i
      rw [List.getElem?_take]
      by_cases hi : i < cntEq d m keys
      · rw [if_pos hi, List.getElem?_drop]
        have hseg : H m - cntEq d m keys = cntLt d m keys := by
          rw [hH m, if_pos hmle, cntLt_succ]
          omega
        have hval := hA m i hi
        rw [hseg] at hval
        rw [hval]
      · rw [if_neg hi]
        symm
        exact List.getElem?_eq_none (by rw [filterDigit_length]; omega)
  have hfinal := htile (maxValue + 1) (Nat.le_refl _)
  rw [cntLt_eq_length d hb, ← hRlen, List.take_length] at hfinal
  rw [stableSorted, ← hfinal]

theorem CountSort_eq {α : Type} (values : α) (valueSelector : α → Nat → Nat) (maxValue : Nat)
    (keys outKeys : List Nat)
    (hb : ∀ k ∈ keys, valueSelector values k ≤ maxValue)
    (hlen : outKeys.length = keys.length) :
    CountSort values valueSelector maxValue keys outKeys
      = (true, stableSorted (valueSelector values) maxValue keys) := by
  have hbh := buildHist_some (valueSelector values) maxValue keys (fun _ => 0) hb
  rw [CountSort, hbh]
  show (true, (placeLoop (valueSelector values) keys
      (prefixSum (fun v => (fun _ => 0) v + cntEq (valueSelector values) v keys) maxValue)
      outKeys).2)
    = (true, stableSorted (valueSelector values) maxValue keys)
  have hfun : (fun v => (fun _ => 0) v + cntEq (valueSelector values) v keys)
      = fun w => cntEq (valueSelector values) w keys := by
    funext w
    simp
  rw [hfun]
  congr 1
  apply placeLoop_stableSorted (valueSelector values) maxValue keys outKeys _ _ hb hlen
  intro v
  rw [prefixSum_eq]
  by_cases hv : v ≤ maxValue
  · rw [if_pos hv, if_pos hv, sumTo_cntEq]
  · rw [if_neg hv, if_neg hv]

/-! ### Properties of the stable reordering -/

theorem mem_digitBlocks (d : Nat → Nat) (ks : List Nat) :
    ∀ m a, a ∈ digitBlocks d ks m → a ∈ ks ∧ d a < m := by
  intro m
  induction m with
  | zero => intro a ha; simp [digitBlocks] at ha
  | succ m ih =>
    intro a ha
    rw [digitBlocks, List.mem_append] at ha
    rcases ha with ha | ha
    · have := ih a ha
      exact ⟨this.1, by omega⟩
    · have := mem_filterDigit d ha
      exact ⟨this.1, by omega⟩

theorem count_digitBlocks (d : Nat → Nat) (ks : List Nat) :
    ∀ m a, (digitBlocks d ks m).count a = if d a < m then ks.count a else 0 := by
  intro m
  induction m with
  | zero => intro a; simp [digitBlocks]
  | succ m ih =>
    intro a
    rw [digitBlocks, List.count_append, ih]
    by_cases hda : d a = m
    · rw [if_neg (by omega), if_pos (by omega), Nat.zero_add]
      show (List.filter (fun k => d k == m) ks).count a = ks.count a
      exact List.count_filter (by simp [hda])
    · have hnot : a ∉ filterDigit d m ks := fun hmem => hda (mem_filterDigit d hmem).2
      rw [List.count_eq_zero_of_not_mem hnot]
      by_cases hlt : d a < m
      · rw [if_pos hlt, if_pos (by omega)]
        omega
      · rw [if_neg hlt, if_neg (by omega)]

theorem stableSorted_perm (d : Nat → Nat) (maxValue : Nat) (ks : List Nat)
    (hb : ∀ k ∈ ks, d k ≤ maxValue) : (stableSorted d maxValue ks).Perm ks := by
  rw [List.perm_iff_count]
  intro a
  rw [stableSorted, count_digitBlocks]
  by_cases ha : a ∈ ks
  · rw [if_pos (by have := hb a ha; omega)]
  · rw [List.count_eq_zero_of_not_mem ha]
    split <;> rfl

theorem pairwise_trivial (ks : List Nat) : ks.Pairwise (fun _ _ => True) :=
  List.pairwise_of_forall_mem_list fun _ _ _ _ => trivial

theorem digitBlocks_pairwise (d : Nat → Nat) (R : Nat → Nat → Prop) (ks : List Nat)
    (hR : ks.Pairwise R) :
    ∀ m, (digitBlocks d ks m).Pairwise (liftRel d R) := by
  intro m
  induction m with
  | zero => exact List.Pairwise.nil
  | succ m ih =>
    rw [digitBlocks, List.pairwise_append]
    refine ⟨ih, ?_, ?_⟩
    · have h1 : (filterDigit d m ks).Pairwise R := hR.filter _
      refine List.Pairwise.imp_of_mem ?_ h1
      intro a b ha hb hab
      right
      rw [(mem_filterDigit d ha).2, (mem_filterDigit d hb).2]
      exact ⟨rfl, hab⟩
    · intro a ha b hb
      left
      have h1 := (mem_digitBlocks d ks m a ha).2
      have h2 := (mem_filterDigit d hb).2
      omega

theorem stableSorted_pairwise (d : Nat → Nat) (R : Nat → Nat → Prop) (maxValue : Nat)
    (ks : List Nat) (hR : ks.Pairwise R) :
    (stableSorted d maxValue ks).Pairwise (liftRel d R) :=
  digitBlocks_pairwise d R ks hR (maxValue + 1)

theorem filterDigit_filterDigit (d : Nat → Nat) (v w : Nat) (ks : List Nat) :
    filterDigit d v (filterDigit d w ks) = if v = w then filterDigit d v ks else [] := by
  induction ks with
  | nil => by_cases h : v = w <;> simp [filterDigit, h]
  | cons k ks ih =>
    by_cases hw : d k = w
    · rw [filterDigit_cons_eq d ks hw]
      by_cases hv : d k = v
      · have hvw : v = w := by omega
        subst hvw
        rw [filterDigit_cons_eq d _ hv, ih, if_pos rfl, if_pos rfl,
          filterDigit_cons_eq d ks hv]
      · have hvw : v ≠ w := by omega
        rw [filterDigit_cons_ne d _ hv, ih, if_neg hvw, if_neg hvw]
    · rw [filterDigit_cons_ne d ks hw, ih]
      by_cases hvw : v = w
      · rw [if_pos hvw, if_pos hvw]
        subst hvw
        have hv : d k ≠ v := hw
        rw [filterDigit_cons_ne d ks hv]
      · rw [if_neg hvw, if_neg hvw]

theorem filterDigit_digitBlocks (d : Nat → Nat) (ks : List Nat) :
    ∀ m v, filterDigit d v (digitBlocks d ks m) = if v < m then filterDigit d v ks else [] := by
  intro m
  induction m with
  | zero => intro v; simp [digitBlocks, filterDigit]
  | succ m ih =>
    intro v
    rw [digitBlocks]
    have happ : filterDigit d v (digitBlocks d ks m ++ filterDigit d m ks)
        = filterDigit d v (digitBlocks d ks m) ++ filterDigit d v (filterDigit d m ks) := by
      simp [filterDigit, List.filter_append]
    rw [happ, ih, filterDigit_filterDigit]
    by_cases h1 : v < m
    · rw [if_pos h1, if_neg (by omega), if_pos (by omega), List.append_nil]
    · by_cases h2 : v = m
      · rw [if_neg h1, if_pos h2, if_pos (by omega), List.nil_append]
      · rw [if_neg h1, if_neg h2, if_neg (by omega), List.append_nil]

theorem stableSorted_filterDigit (d : Nat → Nat) (maxValue : Nat) (ks : List Nat)
    (hb : ∀ k ∈ ks, d k ≤ maxValue) (v : Nat) :
    filterDigit d v (stableSorted d maxValue ks) = filterDigit d v ks := by
  rw [stableSorted, filterDigit_digitBlocks]
  by_cases hv : v < maxValue + 1
  · rw [if_pos hv]
  · rw [if_neg hv]
    symm
    simp only [filterDigit, List.filter_eq_nil_iff]
    intro k hk
    have := hb k hk
    simp only [beq_iff_eq]
    omega

theorem CountSort_fail {α : Type} (values : α) (valueSelector : α → Nat → Nat) (maxValue : Nat)
    (keys outKeys : List Nat) (hex : ∃ k ∈ keys, maxValue < valueSelector values k) :
    CountSort values valueSelector maxValue keys outKeys = (false, outKeys) := by
  rw [CountSort, buildHist_none (valueSelector values) maxValue keys _ hex]

/-! ### The composite date-time order -/

theorem lex_step (a b : Nat) (r : Bool) (P : Prop) (h : r = true ↔ P) :
    (if a < b then true
      else if b < a then false
      else r) = true ↔ (a < b ∨ (a = b ∧ P)) := by
  rcases Nat.lt_trichotomy a b with h1 | h1 | h1
  · rw [if_pos h1]
    simp [h1]
  · rw [if_neg (by omega), if_neg (by omega), h]
    constructor
    · intro hp
      exact Or.inr ⟨h1, hp⟩
    · rintro (h2 | ⟨_, hp⟩)
      · omega
      · exact hp
  · rw [if_neg (by omega), if_pos h1]
    simp only [Bool.false_eq_true, false_iff]
    rintro (h2 | ⟨h2, _⟩) <;> omega

theorem DateTimeLessThan_iff (x y : DateTime) :
    DateTimeLessThan x y = true ↔
      (x.year < y.year ∨ (x.year = y.year ∧
        (x.month < y.month ∨ (x.month = y.month ∧
          (x.day < y.day ∨ (x.day = y.day ∧
            (x.hour < y.hour ∨ (x.hour = y.hour ∧
              (x.minute < y.minute ∨ (x.minute = y.minute ∧
                x.second < y.second)))))))))) := by
  rw [DateTimeLessThan]
  apply lex_step
  apply lex_step
  apply lex_step
  apply lex_step
  apply lex_step
  simp

theorem IsDateTimeValid_iff (x : DateTime) :
    IsDateTimeValid x = true ↔
      (x.year ≤ 9999 ∧ 1 ≤ x.month ∧ x.month ≤ 12 ∧ 1 ≤ x.day ∧ x.day ≤ 31
        ∧ x.hour ≤ 23 ∧ x.minute ≤ 59 ∧ x.second ≤ 59) := by
  simp only [IsDateTimeValid, InRange, Bool.and_eq_true, decide_eq_true_eq]
  omega

theorem DateTime_eq_iff (x y : DateTime) :
    x = y ↔ (x.year = y.year ∧ x.month = y.month ∧ x.day = y.day ∧ x.hour = y.hour
      ∧ x.minute = y.minute ∧ x.second = y.second) := by
  cases x
  cases y
  simp [DateTime.mk.injEq]

set_option maxHeartbeats 2000000 in
theorem radix_digits_le (x y : DateTime) (hx : x.year ≤ 9999) (hy : y.year ≤ 9999)
    (h : x.year / 1000 % 10 < y.year / 1000 % 10 ∨ (x.year / 1000 % 10 = y.year / 1000 % 10 ∧
      (x.year / 100 % 10 < y.year / 100 % 10 ∨ (x.year / 100 % 10 = y.year / 100 % 10 ∧
        (x.year / 10 % 10 < y.year / 10 % 10 ∨ (x.year / 10 % 10 = y.year / 10 % 10 ∧
          (x.year % 10 < y.year % 10 ∨ (x.year % 10 = y.year % 10 ∧
            (x.month < y.month ∨ (x.month = y.month ∧
              (x.day < y.day ∨ (x.day = y.day ∧
                (x.hour < y.hour ∨ (x.hour = y.hour ∧
                  (x.minute < y.minute ∨ (x.minute = y.minute ∧
                    (x.second < y.second ∨ (x.second = y.second ∧
                      True)))))))))))))))))) :
    dtLe x y := by
  obtain ⟨ya, moa, da, ha2, mia, sa⟩ := x
  obtain ⟨yb, mob, db, hb2, mib, sb⟩ := y
  rw [dtLe]
  rw [DateTimeLessThan_iff]
  rw [DateTime_eq_iff]
  simp only at h hx hy ⊢
  omega

theorem radixRel_le (dts : List DateTime) (a b : Nat)
    (ha : IsDateTimeValid (dts.getD a dtDefault) = true)
    (hb : IsDateTimeValid (dts.getD b dtDefault) = true)
    (h : radixRel dts a b) :
    dtLe (dts.getD a dtDefault) (dts.getD b dtDefault) := by
  rw [IsDateTimeValid_iff] at ha hb
  simp only [radixRel, liftRel, YearMilleniumSelector, YearCenturySelector, YearDecadeSelector,
    YearLSDSelector, MonthSelector, DaySelector, HourSelector, MinuteSelector,
    SecondSelector] at h
  exact radix_digits_le _ _ ha.1 hb.1 h

/-! ### The nine radix passes -/

theorem pass_step (dts : List DateTime) (sel : List DateTime → Nat → Nat) (maxV : Nat)
    (keys out0 : List Nat) (R : Nat → Nat → Prop)
    (hsel : ∀ k, k < dts.length → sel dts k ≤ maxV)
    (hlen : out0.length = keys.length)
    (hperm : keys.Perm (List.range dts.length))
    (hpair : keys.Pairwise R) :
    CountSort dts sel maxV keys out0 = (true, stableSorted (sel dts) maxV keys)
      ∧ (stableSorted (sel dts) maxV keys).Perm (List.range dts.length)
      ∧ (stableSorted (sel dts) maxV keys).Pairwise (liftRel (sel dts) R) := by
  have hbk : ∀ k ∈ keys, sel dts k ≤ maxV := by
    intro k hk
    exact hsel k (List.mem_range.mp (hperm.mem_iff.mp hk))
  exact ⟨CountSort_eq dts sel maxV keys out0 hbk hlen,
    (stableSorted_perm _ maxV keys hbk).trans hperm,
    stableSorted_pairwise _ R maxV keys hpair⟩

theorem valid_getD (dts : List DateTime) (hv : ∀ x ∈ dts, IsDateTimeValid x = true)
    (k : Nat) (hk : k < dts.length) : IsDateTimeValid (dts.getD k dtDefault) = true := by
  rw [List.getD_eq_getElem dts dtDefault hk]
  exact hv _ (List.getElem_mem hk)

theorem SortDateTimes_spec (dts : List DateTime)
    (hv : ∀ x ∈ dts, IsDateTimeValid x = true) :
    ∃ out, SortDateTimes dts = some out
      ∧ out.Perm (List.range dts.length)
      ∧ out.Pairwise (radixRel dts) := by
  have hvk := valid_getD dts hv
  have hfields : ∀ k, k < dts.length →
      (dts.getD k dtDefault).year ≤ 9999 ∧ 1 ≤ (dts.getD k dtDefault).month
        ∧ (dts.getD k dtDefault).month ≤ 12 ∧ 1 ≤ (dts.getD k dtDefault).day
        ∧ (dts.getD k dtDefault).day ≤ 31 ∧ (dts.getD k dtDefault).hour ≤ 23
        ∧ (dts.getD k dtDefault).minute ≤ 59 ∧ (dts.getD k dtDefault).second ≤ 59 :=
    fun k hk => (IsDateTimeValid_iff _).mp (hvk k hk)
  obtain ⟨he1, hp1, hq1⟩ := pass_step dts SecondSelector 59 (List.range dts.length)
    (List.replicate dts.length 0) (fun _ _ => True)
    (fun k hk => by have := hfields k hk; rw [SecondSelector]; omega)
    (by simp) (List.Perm.refl _) (pairwise_trivial _)
  obtain ⟨he2, hp2, hq2⟩ := pass_step dts MinuteSelector 59 _ _ _
    (fun k hk => by have := hfields k hk; rw [MinuteSelector]; omega)
    rfl hp1 hq1
  obtain ⟨he3, hp3, hq3⟩ := pass_step dts HourSelector 23 _ _ _
    (fun k hk => by have := hfields k hk; rw [HourSelector]; omega)
    rfl hp2 hq2
  obtain ⟨he4, hp4, hq4⟩ := pass_step dts DaySelector 31 _ _ _
    (fun k hk => by have := hfields k hk; rw [DaySelector]; omega)
    rfl hp3 hq3
  obtain ⟨he5, hp5, hq5⟩ := pass_step dts MonthSelector 12 _ _ _
    (fun k hk => by have := hfields k hk; rw [MonthSelector]; omega)
    rfl hp4 hq4
  obtain ⟨he6, hp6, hq6⟩ := pass_step dts YearLSDSelector 9 _ _ _
    (fun k hk => by rw [YearLSDSelector]; omega)
    rfl hp5 hq5
  obtain ⟨he7, hp7, hq7⟩ := pass_step dts YearDecadeSelector 9 _ _ _
    (fun k hk => by rw [YearDecadeSelector]; omega)
    rfl hp6 hq6
  obtain ⟨he8, hp8, hq8⟩ := pass_step dts YearCenturySelector 9 _ _ _
    (fun k hk => by rw [YearCenturySelector]; omega)
    rfl hp7 hq7
  obtain ⟨he9, hp9, hq9⟩ := pass_step dts YearMilleniumSelector 9 _ _ _
    (fun k hk => by rw [YearMilleniumSelector]; omega)
    rfl hp8 hq8
  refine ⟨_, ?_, hp9, hq9⟩
  simp only [SortDateTimes, he1, he2, he3, he4, he5, he6, he7, he8, he9,
    Bool.not_true, Bool.false_eq_true, if_false]

theorem SortDateTimes_sorted (dts : List DateTime)
    (hv : ∀ x ∈ dts, IsDateTimeValid x = true) :
    ∃ out, SortDateTimes dts = some out
      ∧ out.Perm (List.range dts.length)
      ∧ out.Pairwise (fun i j => dtLe (dts.getD i dtDefault) (dts.getD j dtDefault)) := by
  obtain ⟨out, hout, hperm, hpair⟩ := SortDateTimes_spec dts hv
  refine ⟨out, hout, hperm, ?_⟩
  refine List.Pairwise.imp_of_mem ?_ hpair
  intro a b hamem hbmem hab
  have ha : a < dts.length := List.mem_range.mp (hperm.mem_iff.mp hamem)
  have hb : b < dts.length := List.mem_range.mp (hperm.mem_iff.mp hbmem)
  exact radixRel_le dts a b (valid_getD dts hv a ha) (valid_getD dts hv b hb) hab

/-! ### Adjacent-duplicate extraction -/

theorem DateTimesEqual_iff (x y : DateTime) : DateTimesEqual x y = true ↔ x = y := by
  rw [DateTime_eq_iff x y]
  simp [DateTimesEqual, Bool.and_eq_true, beq_iff_eq, and_assoc]

theorem DateTimeLessThan_irrefl (x : DateTime) : ¬ DateTimeLessThan x x = true := by
  rw [DateTimeLessThan_iff]
  omega

theorem DateTimeLessThan_trans {x y z : DateTime} (h1 : DateTimeLessThan x y = true)
    (h2 : DateTimeLessThan y z = true) : DateTimeLessThan x z = true := by
  rw [DateTimeLessThan_iff] at h1 h2 ⊢
  omega

theorem dedupGo_subset (dts : List DateTime) :
    ∀ (rest : List Nat) (prev k : Nat), k ∈ dedupGo dts prev rest → k ∈ rest := by
  intro rest
  induction rest with
  | nil => intro prev k h; simp [dedupGo] at h
  | cons a rest ih =>
    intro prev k h
    rw [dedupGo] at h
    split at h
    · exact List.mem_cons_of_mem _ (ih a k h)
    · rcases List.mem_cons.mp h with rfl | h2
      · exact List.mem_cons_self _ _
      · exact List.mem_cons_of_mem _ (ih a k h2)

theorem dedupGo_rep (dts : List DateTime) :
    ∀ (rest : List Nat) (prev x : Nat), x ∈ rest →
      dts.getD x dtDefault = dts.getD prev dtDefault
      ∨ ∃ k ∈ dedupGo dts prev rest, dts.getD k dtDefault = dts.getD x dtDefault := by
  intro rest
  induction rest with
  | nil => intro prev x hx; simp at hx
  | cons a rest ih =>
    intro prev x hx
    rw [dedupGo]
    by_cases he : DateTimesEqual (dts.getD prev dtDefault) (dts.getD a dtDefault) = true
    · rw [if_pos he]
      have heq : dts.getD a dtDefault = dts.getD prev dtDefault :=
        ((DateTimesEqual_iff _ _).mp he).symm
      rcases List.mem_cons.mp hx with rfl | hx2
      · exact Or.inl heq
      · rcases ih a x hx2 with h1 | ⟨k, hk1, hk2⟩
        · exact Or.inl (h1.trans heq)
        · exact Or.inr ⟨k, hk1, hk2⟩
    · rw [if_neg he]
      rcases List.mem_cons.mp hx with rfl | hx2
      · exact Or.inr ⟨x, List.mem_cons_self _ _, rfl⟩
      · rcases ih a x hx2 with h1 | ⟨k, hk1, hk2⟩
        · exact Or.inr ⟨a, List.mem_cons_self _ _, h1.symm⟩
        · exact Or.inr ⟨k, List.mem_cons_of_mem _ hk1, hk2⟩

theorem dedupGo_sorted (dts : List DateTime) :
    ∀ (rest : List Nat) (prev : Nat),
      (prev :: rest).Pairwise (fun i j => dtLe (dts.getD i dtDefault) (dts.getD j dtDefault)) →
      (dedupGo dts prev rest).Pairwise
          (fun i j => DateTimeLessThan (dts.getD i dtDefault) (dts.getD j dtDefault) = true)
        ∧ ∀ k ∈ dedupGo dts prev rest,
            DateTimeLessThan (dts.getD prev dtDefault) (dts.getD k dtDefault) = true := by
  intro rest
  induction rest with
  | nil =>
    intro prev _
    exact ⟨List.Pairwise.nil, by intro k hk; simp [dedupGo] at hk⟩
  | cons a rest ih =>
    intro prev hp
    rw [List.pairwise_cons] at hp
    have hpa : dtLe (dts.getD prev dtDefault) (dts.getD a dtDefault) := hp.1 a (by simp)
    obtain ⟨ihp, ihlt⟩ := ih a hp.2
    rw [dedupGo]
    by_cases he : DateTimesEqual (dts.getD prev dtDefault) (dts.getD a dtDefault) = true
    · rw [if_pos he]
      have heq := (DateTimesEqual_iff _ _).mp he
      refine ⟨ihp, fun k hk => ?_⟩
      rw [heq]
      exact ihlt k hk
    · rw [if_neg he]
      have hne : dts.getD prev dtDefault ≠ dts.getD a dtDefault := fun hc =>
        he ((DateTimesEqual_iff _ _).mpr hc)
      have hlt_pa : DateTimeLessThan (dts.getD prev dtDefault) (dts.getD a dtDefault) = true := by
        rcases hpa with h | h
        · exact h
        · exact absurd h hne
      constructor
      · rw [List.pairwise_cons]
        exact ⟨ihlt, ihp⟩
      · intro k hk
        rcases List.mem_cons.mp hk with rfl | hk2
        · exact hlt_pa
        · exact DateTimeLessThan_trans hlt_pa (ihlt k hk2)

theorem dedupAdjacent_subset (dts : List DateTime) (sorted : List Nat) :
    ∀ k ∈ dedupAdjacent dts sorted, k ∈ sorted := by
  cases sorted with
  | nil => intro k hk; simp [dedupAdjacent] at hk
  | cons s0 rest =>
    intro k hk
    rw [dedupAdjacent] at hk
    rcases List.mem_cons.mp hk with rfl | hk2
    · exact List.mem_cons_self _ _
    · exact List.mem_cons_of_mem _ (dedupGo_subset dts rest s0 k hk2)

theorem dedupAdjacent_rep (dts : List DateTime) (sorted : List Nat) :
    ∀ x ∈ sorted, ∃ k ∈ dedupAdjacent dts sorted,
      dts.getD k dtDefault = dts.getD x dtDefault := by
  cases sorted with
  | nil => intro x hx; simp at hx
  | cons s0 rest =>
    intro x hx
    rw [dedupAdjacent]
    rcases List.mem_cons.mp hx with rfl | hx2
    · exact ⟨x, List.mem_cons_self _ _, rfl⟩
    · rcases dedupGo_rep dts rest s0 x hx2 with h1 | ⟨k, hk1, hk2⟩
      · exact ⟨s0, List.mem_cons_self _ _, h1.symm⟩
      · exact ⟨k, List.mem_cons_of_mem _ hk1, hk2⟩

theorem dedupAdjacent_sorted (dts : List DateTime) (sorted : List Nat)
    (hp : sorted.Pairwise (fun i j => dtLe (dts.getD i dtDefault) (dts.getD j dtDefault))) :
    (dedupAdjacent dts sorted).Pairwise
      (fun i j => DateTimeLessThan (dts.getD i dtDefault) (dts.getD j dtDefault) = true) := by
  cases sorted with
  | nil => exact List.Pairwise.nil
  | cons s0 rest =>
    rw [dedupAdjacent, List.pairwise_cons]
    obtain ⟨hpair, hlt⟩ := dedupGo_sorted dts rest s0 hp
    exact ⟨hlt, hpair⟩

theorem DistinctDateTimes_spec (dts : List DateTime)
    (hv : ∀ x ∈ dts, IsDateTimeValid x = true) :
    ∃ out, DistinctDateTimes dts = some (out, out.length)
      ∧ out.Pairwise
          (fun i j => DateTimeLessThan (dts.getD i dtDefault) (dts.getD j dtDefault) = true)
      ∧ (∀ j, j < dts.length → ∃ k ∈ out, dts.getD k dtDefault = dts.getD j dtDefault)
      ∧ (∀ k ∈ out, k < dts.length)
      ∧ out.length = dts.toFinset.card := by
  obtain ⟨sorted, hsort, hperm, hpair⟩ := SortDateTimes_sorted dts hv
  have hmem : ∀ k ∈ dedupAdjacent dts sorted, k < dts.length := fun k hk =>
    List.mem_range.mp (hperm.mem_iff.mp (dedupAdjacent_subset dts sorted k hk))
  refine ⟨dedupAdjacent dts sorted, ?_, dedupAdjacent_sorted dts sorted hpair, ?_, hmem, ?_⟩
  · simp only [DistinctDateTimes, hsort]
  · intro j hj
    exact dedupAdjacent_rep dts sorted j (hperm.mem_iff.mpr (List.mem_range.mpr hj))
  · have hsortpw := dedupAdjacent_sorted dts sorted hpair
    have hnodup : (dedupAdjacent dts sorted).map (fun k => dts.getD k dtDefault)
        |>.Pairwise (fun a b => a ≠ b) := by
      refine List.pairwise_map.mpr ?_
      refine hsortpw.imp ?_
      intro a b hab hcontra
      rw [hcontra] at hab
      exact DateTimeLessThan_irrefl _ hab
    have hsets : ((dedupAdjacent dts sorted).map (fun k => dts.getD k dtDefault)).toFinset
        = dts.toFinset := by
      apply Finset.ext
      intro x
      simp only [List.mem_toFinset, List.mem_map]
      constructor
      · rintro ⟨k, hk, rfl⟩
        have hklt := hmem k hk
        rw [List.getD_eq_getElem dts dtDefault hklt]
        exact List.getElem_mem hklt
      · intro hx
        obtain ⟨j, hj, hje⟩ := List.getElem_of_mem hx
        obtain ⟨k, hk1, hk2⟩ := dedupAdjacent_rep dts sorted j
          (hperm.mem_iff.mpr (List.mem_range.mpr hj))
        refine ⟨k, hk1, ?_⟩
        rw [hk2, List.getD_eq_getElem dts dtDefault hj, hje]
    calc (dedupAdjacent dts sorted).length
        = ((dedupAdjacent dts sorted).map (fun k => dts.getD k dtDefault)).length :=
          (List.length_map _ _).symm
      _ = ((dedupAdjacent dts sorted).map (fun k => dts.getD k dtDefault)).toFinset.card :=
          (List.toFinset_card_of_nodup hnodup).symm
      _ = dts.toFinset.card := by rw [hsets]

/-! ### The ISO-8601 parser on rendered text -/

theorem digitChar_toNat (n : Nat) (h : n < 10) : (digitChar n).toNat = 48 + n := by
  have hval : (48 + n).isValidChar := Or.inl (by omega)
  rw [digitChar, Char.ofNat, dif_pos hval]
  rfl

theorem isDigitChar_digitChar (n : Nat) : isDigitChar (digitChar (n % 10)) = true := by
  have h := digitChar_toNat (n % 10) (by omega)
  simp only [isDigitChar, h]
  have h10 : n % 10 < 10 := by omega
  simp
  omega

theorem digitVal_digitChar (n : Nat) : digitVal (digitChar (n % 10)) = n % 10 := by
  have h := digitChar_toNat (n % 10) (by omega)
  rw [digitVal, h]
  omega

theorem readDigits_step (s : List Char) (p len acc m : Nat)
    (h : charAt s p = digitChar (m % 10)) :
    readDigits s p (len + 1) acc = readDigits s (p + 1) len (acc * 10 + m % 10) := by
  rw [readDigits, h, isDigitChar_digitChar, if_pos rfl, digitVal_digitChar]

theorem readDigits_two (s : List Char) (p n : Nat) (hn : n ≤ 99)
    (h0 : charAt s p = digitChar (n / 10 % 10))
    (h1 : charAt s (p + 1) = digitChar (n % 10)) :
    readDigits s p 2 0 = some n := by
  rw [show (2 : Nat) = 1 + 1 from rfl, readDigits_step s p 1 0 (n / 10) h0,
    show (1 : Nat) = 0 + 1 from rfl, readDigits_step s (p + 1) 0 _ n h1]
  rw [readDigits]
  congr 1
  omega

theorem readDigits_four (s : List Char) (p y : Nat) (hy : y ≤ 9999)
    (h0 : charAt s p = digitChar (y / 1000 % 10))
    (h1 : charAt s (p + 1) = digitChar (y / 100 % 10))
    (h2 : charAt s (p + 2) = digitChar (y / 10 % 10))
    (h3 : charAt s (p + 3) = digitChar (y % 10)) :
    readDigits s p 4 0 = some y := by
  rw [show (4 : Nat) = 3 + 1 from rfl, readDigits_step s p 3 0 (y / 1000) h0,
    show (3 : Nat) = 2 + 1 from rfl, readDigits_step s (p + 1) 2 _ (y / 100) h1]
  rw [show p + 1 + 1 = p + 2 from rfl,
    show (2 : Nat) = 1 + 1 from rfl, readDigits_step s (p + 2) 1 _ (y / 10) h2,
    show p + 2 + 1 = p + 3 from rfl,
    show (1 : Nat) = 0 + 1 from rfl, readDigits_step s (p + 3) 0 _ y h3]
  rw [readDigits]
  congr 1
  omega


theorem parse_renderDateTime (dt : DateTime) (hv : IsDateTimeValid dt = true) :
    PopulateDateTimeFromIsoString (renderDateTime dt) = some dt := by
  obtain ⟨hy, _, hm2, _, hd2, hh, hmi, hs⟩ := (IsDateTimeValid_iff dt).mp hv
  have r1 : readDigits (renderDateTime dt) 0 4 0 = some dt.year :=
    readDigits_four _ 0 dt.year hy rfl rfl rfl rfl
  have r2 : readDigits (renderDateTime dt) 5 2 0 = some dt.month :=
    readDigits_two _ 5 dt.month (by omega) rfl rfl
  have r3 : readDigits (renderDateTime dt) 8 2 0 = some dt.day :=
    readDigits_two _ 8 dt.day (by omega) rfl rfl
  have r4 : readDigits (renderDateTime dt) 11 2 0 = some dt.hour :=
    readDigits_two _ 11 dt.hour (by omega) rfl rfl
  have r5 : readDigits (renderDateTime dt) 14 2 0 = some dt.minute :=
    readDigits_two _ 14 dt.minute (by omega) rfl rfl
  have r6 : readDigits (renderDateTime dt) 17 2 0 = some dt.second :=
    readDigits_two _ 17 dt.second (by omega) rfl rfl
  have heta : (⟨dt.year, dt.month, dt.day, dt.hour, dt.minute, dt.second⟩ : DateTime) = dt := rfl
  simp only [PopulateDateTimeFromIsoString, r1, r2, r3, r4, r5, r6,
    show ExpectChar (renderDateTime dt) 4 '-' = true from rfl,
    show ExpectChar (renderDateTime dt) 7 '-' = true from rfl,
    show ExpectChar (renderDateTime dt) 10 'T' = true from rfl,
    show ExpectChar (renderDateTime dt) 13 ':' = true from rfl,
    show ExpectChar (renderDateTime dt) 16 ':' = true from rfl,
    show charAt (renderDateTime dt) 19 = 'Z' from rfl,
    show (('Z' == '+') || ('Z' == '-')) = false from rfl,
    show ('Z' == 'Z') = true from rfl,
    Bool.not_true, Bool.false_eq_true, if_false, if_true, heta]
  rw [finishParse,
    show skipSpaces (renderDateTime dt) 20 = 20 from rfl,
    show ExpectChar (renderDateTime dt) 20 (Char.ofNat 0) = true from rfl]
  simp [hv]

theorem parse_renderDate_none (dt : DateTime) (hv : IsDateTimeValid dt = true) :
    PopulateDateTimeFromIsoString (renderDate dt) = none := by
  obtain ⟨hy, _, hm2, _, hd2, hh, hmi, hs⟩ := (IsDateTimeValid_iff dt).mp hv
  have r1 : readDigits (renderDate dt) 0 4 0 = some dt.year :=
    readDigits_four _ 0 dt.year hy rfl rfl rfl rfl
  have r2 : readDigits (renderDate dt) 5 2 0 = some dt.month :=
    readDigits_two _ 5 dt.month (by omega) rfl rfl
  have r3 : readDigits (renderDate dt) 8 2 0 = some dt.day :=
    readDigits_two _ 8 dt.day (by omega) rfl rfl
  have r4 : readDigits (renderDate dt) 11 2 0 = some dt.hour :=
    readDigits_two _ 11 dt.hour (by omega) rfl rfl
  have r5 : readDigits (renderDate dt) 14 2 0 = some dt.minute :=
    readDigits_two _ 14 dt.minute (by omega) rfl rfl
  have r6 : readDigits (renderDate dt) 17 2 0 = some dt.second :=
    readDigits_two _ 17 dt.second (by omega) rfl rfl
  simp only [PopulateDateTimeFromIsoString, r1, r2, r3, r4, r5, r6,
    show ExpectChar (renderDate dt) 4 '-' = true from rfl,
    show ExpectChar (renderDate dt) 7 '-' = true from rfl,
    show ExpectChar (renderDate dt) 10 'T' = true from rfl,
    show ExpectChar (renderDate dt) 13 ':' = true from rfl,
    show ExpectChar (renderDate dt) 16 ':' = true from rfl,
    show charAt (renderDate dt) 19 = Char.ofNat 0 from rfl,
    show ((Char.ofNat 0 == '+') || (Char.ofNat 0 == '-')) = false from rfl,
    show (Char.ofNat 0 == 'Z') = false from rfl,
    Bool.not_true, Bool.false_eq_true, if_false, if_true]

theorem parse_renderOffset_plus (dt : DateTime) (hv : IsDateTimeValid dt = true)
    (h m : Nat) (hho : h ≤ 23) (hmo : m ≤ 59) :
    PopulateDateTimeFromIsoString (renderWithOffset dt '+' h m)
      = (if (OffsetDateTime dt (h : Int) (m : Int)).1
          then some (OffsetDateTime dt (h : Int) (m : Int)).2 else none) := by
  obtain ⟨hy, _, hm2, _, hd2, hh2, hmi, hs⟩ := (IsDateTimeValid_iff dt).mp hv
  have r1 : readDigits (renderWithOffset dt '+' h m) 0 4 0 = some dt.year :=
    readDigits_four _ 0 dt.year hy rfl rfl rfl rfl
  have r2 : readDigits (renderWithOffset dt '+' h m) 5 2 0 = some dt.month :=
    readDigits_two _ 5 dt.month (by omega) rfl rfl
  have r3 : readDigits (renderWithOffset dt '+' h m) 8 2 0 = some dt.day :=
    readDigits_two _ 8 dt.day (by omega) rfl rfl
  have r4 : readDigits (renderWithOffset dt '+' h m) 11 2 0 = some dt.hour :=
    readDigits_two _ 11 dt.hour (by omega) rfl rfl
  have r5 : readDigits (renderWithOffset dt '+' h m) 14 2 0 = some dt.minute :=
    readDigits_two _ 14 dt.minute (by omega) rfl rfl
  have r6 : readDigits (renderWithOffset dt '+' h m) 17 2 0 = some dt.second :=
    readDigits_two _ 17 dt.second (by omega) rfl rfl
  have rt1 : readDigits (renderWithOffset dt '+' h m) 20 2 0 = some h :=
    readDigits_two _ 20 h (by omega) rfl rfl
  have rt2 : readDigits (renderWithOffset dt '+' h m) 23 2 0 = some m :=
    readDigits_two _ 23 m (by omega) rfl rfl
  have hir1 : InRange h 0 23 = true := by simp [InRange]; omega
  have hir2 : InRange m 0 59 = true := by simp [InRange]; omega
  have heta : (⟨dt.year, dt.month, dt.day, dt.hour, dt.minute, dt.second⟩ : DateTime) = dt := rfl
  have hrel : (OffsetDateTime dt (h : Int) (m : Int)).1
      = IsDateTimeValid (OffsetDateTime dt (h : Int) (m : Int)).2 := rfl
  simp only [PopulateDateTimeFromIsoString, r1, r2, r3, r4, r5, r6, rt1, rt2, hir1, hir2,
    show ExpectChar (renderWithOffset dt '+' h m) 4 '-' = true from rfl,
    show ExpectChar (renderWithOffset dt '+' h m) 7 '-' = true from rfl,
    show ExpectChar (renderWithOffset dt '+' h m) 10 'T' = true from rfl,
    show ExpectChar (renderWithOffset dt '+' h m) 13 ':' = true from rfl,
    show ExpectChar (renderWithOffset dt '+' h m) 16 ':' = true from rfl,
    show ExpectChar (renderWithOffset dt '+' h m) 22 ':' = true from rfl,
    show charAt (renderWithOffset dt '+' h m) 19 = '+' from rfl,
    show (('+' == '+') || ('+' == '-')) = true from rfl,
    show ('+' == '-') = false from rfl,
    Bool.not_true, Bool.not_false, Bool.false_eq_true, if_false, if_true, heta]
  by_cases hr : (OffsetDateTime dt (h : Int) (m : Int)).1 = true
  · rw [hr]
    simp only [Bool.not_true, Bool.false_eq_true, if_false, if_true]
    rw [finishParse,
      show skipSpaces (renderWithOffset dt '+' h m) 25 = 25 from rfl,
      show ExpectChar (renderWithOffset dt '+' h m) 25 (Char.ofNat 0) = true from rfl]
    rw [← hrel, hr]
    simp
  · have hr' : (OffsetDateTime dt (h : Int) (m : Int)).1 = false := by
      cases hb : (OffsetDateTime dt (h : Int) (m : Int)).1
      · rfl
      · exact absurd hb hr
    rw [hr']
    simp

theorem parse_renderOffset_minus (dt : DateTime) (hv : IsDateTimeValid dt = true)
    (h m : Nat) (hho : h ≤ 23) (hmo : m ≤ 59) :
    PopulateDateTimeFromIsoString (renderWithOffset dt '-' h m)
      = (if (OffsetDateTime dt (-(h : Int)) (-(m : Int))).1
          then some (OffsetDateTime dt (-(h : Int)) (-(m : Int))).2 else none) := by
  obtain ⟨hy, _, hm2, _, hd2, hh2, hmi, hs⟩ := (IsDateTimeValid_iff dt).mp hv
  have r1 : readDigits (renderWithOffset dt '-' h m) 0 4 0 = some dt.year :=
    readDigits_four _ 0 dt.year hy rfl rfl rfl rfl
  have r2 : readDigits (renderWithOffset dt '-' h m) 5 2 0 = some dt.month :=
    readDigits_two _ 5 dt.month (by omega) rfl rfl
  have r3 : readDigits (renderWithOffset dt '-' h m) 8 2 0 = some dt.day :=
    readDigits_two _ 8 dt.day (by omega) rfl rfl
  have r4 : readDigits (renderWithOffset dt '-' h m) 11 2 0 = some dt.hour :=
    readDigits_two _ 11 dt.hour (by omega) rfl rfl
  have r5 : readDigits (renderWithOffset dt '-' h m) 14 2 0 = some dt.minute :=
    readDigits_two _ 14 dt.minute (by omega) rfl rfl
  have r6 : readDigits (renderWithOffset dt '-' h m) 17 2 0 = some dt.second :=
    readDigits_two _ 17 dt.second (by omega) rfl rfl
  have rt1 : readDigits (renderWithOffset dt '-' h m) 20 2 0 = some h :=
    readDigits_two _ 20 h (by omega) rfl rfl
  have rt2 : readDigits (renderWithOffset dt '-' h m) 23 2 0 = some m :=
    readDigits_two _ 23 m (by omega) rfl rfl
  have hir1 : InRange h 0 23 = true := by simp [InRange]; omega
  have hir2 : InRange m 0 59 = true := by simp [InRange]; omega
  have heta : (⟨dt.year, dt.month, dt.day, dt.hour, dt.minute, dt.second⟩ : DateTime) = dt := rfl
  have hrel : (OffsetDateTime dt (-(h : Int)) (-(m : Int))).1
      = IsDateTimeValid (OffsetDateTime dt (-(h : Int)) (-(m : Int))).2 := rfl
  simp only [PopulateDateTimeFromIsoString, r1, r2, r3, r4, r5, r6, rt1, rt2, hir1, hir2,
    show ExpectChar (renderWithOffset dt '-' h m) 4 '-' = true from rfl,
    show ExpectChar (renderWithOffset dt '-' h m) 7 '-' = true from rfl,
    show ExpectChar (renderWithOffset dt '-' h m) 10 'T' = true from rfl,
    show ExpectChar (renderWithOffset dt '-' h m) 13 ':' = true from rfl,
    show ExpectChar (renderWithOffset dt '-' h m) 16 ':' = true from rfl,
    show ExpectChar (renderWithOffset dt '-' h m) 22 ':' = true from rfl,
    show charAt (renderWithOffset dt '-' h m) 19 = '-' from rfl,
    show (('-' == '+') || ('-' == '-')) = true from rfl,
    show ('-' == '-') = true from rfl,
    Bool.not_true, Bool.not_false, Bool.false_eq_true, if_false, if_true, heta]
  by_cases hr : (OffsetDateTime dt (-(h : Int)) (-(m : Int))).1 = true
  · rw [hr]
    simp only [Bool.not_true, Bool.false_eq_true, if_false, if_true]
    rw [finishParse,
      show skipSpaces (renderWithOffset dt '-' h m) 25 = 25 from rfl,
      show ExpectChar (renderWithOffset dt '-' h m) 25 (Char.ofNat 0) = true from rfl]
    rw [← hrel, hr]
    simp
  · have hr' : (OffsetDateTime dt (-(h : Int)) (-(m : Int))).1 = false := by
      cases hb : (OffsetDateTime dt (-(h : Int)) (-(m : Int))).1
      · rfl
      · exact absurd hb hr
    rw [hr']
    simp

theorem readDigits_digits (s : List Char) :
    ∀ (len pos acc v : Nat), readDigits s pos len acc = some v →
      ∀ i, i < len → isDigitChar (charAt s (pos + i)) = true := by
  intro len
  induction len with
  | zero => intro pos acc v _ i hi; omega
  | succ len ih =>
    intro pos acc v h i hi
    rw [readDigits] at h
    by_cases hc : isDigitChar (charAt s pos) = true
    · rcases Nat.eq_zero_or_pos i with rfl | hip
      · simpa using hc
      · rw [if_pos hc] at h
        have hstep := ih (pos + 1) _ v h (i - 1) (by omega)
        have harr : pos + 1 + (i - 1) = pos + i := by omega
        rw [harr] at hstep
        exact hstep
    · rw [if_neg hc] at h
      exact absurd h (by simp)

theorem parse_success_digits (s : List Char) (dt : DateTime)
    (h : PopulateDateTimeFromIsoString s = some dt) :
    ∀ p ∈ ([0, 1, 2, 3, 5, 6, 8, 9, 11, 12, 14, 15, 17, 18] : List Nat),
      isDigitChar (charAt s p) = true := by
  rw [PopulateDateTimeFromIsoString] at h
  cases h1 : readDigits s 0 4 0 with
  | none => rw [h1] at h; simp at h
  | some year =>
  rw [h1] at h
  cases e1 : ExpectChar s 4 '-' with
  | false => rw [e1] at h; simp at h
  | true =>
  rw [e1] at h
  simp only [Bool.not_true, Bool.false_eq_true, if_false] at h
  cases h2 : readDigits s 5 2 0 with
  | none => rw [h2] at h; simp at h
  | some month =>
  rw [h2] at h
  cases e2 : ExpectChar s 7 '-' with
  | false => rw [e2] at h; simp at h
  | true =>
  rw [e2] at h
  simp only [Bool.not_true, Bool.false_eq_true, if_false] at h
  cases h3 : readDigits s 8 2 0 with
  | none => rw [h3] at h; simp at h
  | some day =>
  rw [h3] at h
  cases e3 : ExpectChar s 10 'T' with
  | false => rw [e3] at h; simp at h
  | true =>
  rw [e3] at h
  simp only [Bool.not_true, Bool.false_eq_true, if_false] at h
  cases h4 : readDigits s 11 2 0 with
  | none => rw [h4] at h; simp at h
  | some hour =>
  rw [h4] at h
  cases e4 : ExpectChar s 13 ':' with
  | false => rw [e4] at h; simp at h
  | true =>
  rw [e4] at h
  simp only [Bool.not_true, Bool.false_eq_true, if_false] at h
  cases h5 : readDigits s 14 2 0 with
  | none => rw [h5] at h; simp at h
  | some minute =>
  rw [h5] at h
  cases e5 : ExpectChar s 16 ':' with
  | false => rw [e5] at h; simp at h
  | true =>
  rw [e5] at h
  simp only [Bool.not_true, Bool.false_eq_true, if_false] at h
  cases h6 : readDigits s 17 2 0 with
  | none => rw [h6] at h; simp at h
  | some second =>
  have d1 := readDigits_digits s 4 0 0 year h1
  have d2 := readDigits_digits s 2 5 0 month h2
  have d3 := readDigits_digits s 2 8 0 day h3
  have d4 := readDigits_digits s 2 11 0 hour h4
  have d5 := readDigits_digits s 2 14 0 minute h5
  have d6 := readDigits_digits s 2 17 0 second h6
  intro p hp
  simp only [List.mem_cons, List.not_mem_nil, or_false] at hp
  rcases hp with rfl | rfl | rfl | rfl | rfl | rfl | rfl | rfl | rfl | rfl | rfl | rfl | rfl | rfl
  · simpa using d1 0 (by omega)
  · simpa using d1 1 (by omega)
  · simpa using d1 2 (by omega)
  · simpa using d1 3 (by omega)
  · simpa using d2 0 (by omega)
  · simpa using d2 1 (by omega)
  · simpa using d3 0 (by omega)
  · simpa using d3 1 (by omega)
  · simpa using d4 0 (by omega)
  · simpa using d4 1 (by omega)
  · simpa using d5 0 (by omega)
  · simpa using d5 1 (by omega)
  · simpa using d6 0 (by omega)
  · simpa using d6 1 (by omega)

/-! ### The claims -/

/-- C1: For every collection of valid DateTimes (all six fields within their ranges),
SortDateTimes succeeds and returns an index array that is a permutation of
[0, count) ordering the DateTimes ascending by lexicographic comparison on
(year, month, day, hour, minute, second). -/
theorem C1_sort_datetimes (dateTimes : List DateTime)
    (hv : ∀ x ∈ dateTimes, IsDateTimeValid x = true) :
    ∃ out, SortDateTimes dateTimes = some out
      ∧ out.Perm (List.range dateTimes.length)
      ∧ out.Pairwise (fun i j =>
          dtLe (dateTimes.getD i dtDefault) (dateTimes.getD j dtDefault)) :=
  SortDateTimes_sorted dateTimes hv

/-- Witness for C1 at a concrete three-element collection with a duplicate. -/
theorem C1_sort_datetimes_witness :
    (∀ x ∈ ([⟨1, 1, 1, 0, 0, 0⟩, ⟨0, 12, 31, 23, 59, 59⟩, ⟨1, 1, 1, 0, 0, 0⟩] :
        List DateTime), IsDateTimeValid x = true)
    ∧ ∃ out, SortDateTimes ([⟨1, 1, 1, 0, 0, 0⟩, ⟨0, 12, 31, 23, 59, 59⟩,
          ⟨1, 1, 1, 0, 0, 0⟩] : List DateTime) = some out
        ∧ out.Perm (List.range ([⟨1, 1, 1, 0, 0, 0⟩, ⟨0, 12, 31, 23, 59, 59⟩,
            ⟨1, 1, 1, 0, 0, 0⟩] : List DateTime).length)
        ∧ out.Pairwise (fun i j =>
            dtLe (([⟨1, 1, 1, 0, 0, 0⟩, ⟨0, 12, 31, 23, 59, 59⟩,
                ⟨1, 1, 1, 0, 0, 0⟩] : List DateTime).getD i dtDefault)
              (([⟨1, 1, 1, 0, 0, 0⟩, ⟨0, 12, 31, 23, 59, 59⟩,
                ⟨1, 1, 1, 0, 0, 0⟩] : List DateTime).getD j dtDefault)) :=
  ⟨by decide, C1_sort_datetimes _ (by decide)⟩

/-- C2: For every input where the key-extraction function yields a digit at most
maxValue for every given index (and an output buffer of matching size), CountSort
succeeds and writes a reordering of the given index sequence that is ascending by
digit and stable (indices with equal digits keep their relative input order, stated
as preservation of every equal-digit subsequence); in particular sorting the values
[2,0,3,7,6,9,4,4,3,2] with max 9 yields the value sequence [0,2,2,3,3,4,4,6,7,9]. -/
theorem C2_count_sort {α : Type} (values : α) (valueSelector : α → Nat → Nat)
    (maxValue : Nat) (keys outKeys : List Nat)
    (hb : ∀ k ∈ keys, valueSelector values k ≤ maxValue)
    (hlen : outKeys.length = keys.length) :
    (∃ out, CountSort values valueSelector maxValue keys outKeys = (true, out)
      ∧ out.Perm keys
      ∧ out.Pairwise (fun a b => valueSelector values a ≤ valueSelector values b)
      ∧ ∀ v, out.filter (fun k => valueSelector values k == v)
          = keys.filter (fun k => valueSelector values k == v))
    ∧ ((CountSort ([2, 0, 3, 7, 6, 9, 4, 4, 3, 2] : List Nat)
          (fun vs k => vs.getD k 0) 9 (List.range 10) (List.replicate 10 0)).2.map
          (fun k => ([2, 0, 3, 7, 6, 9, 4, 4, 3, 2] : List Nat).getD k 0)
        = [0, 2, 2, 3, 3, 4, 4, 6, 7, 9]) := by
  constructor
  · refine ⟨stableSorted (valueSelector values) maxValue keys,
      CountSort_eq values valueSelector maxValue keys outKeys hb hlen,
      stableSorted_perm _ maxValue keys hb, ?_, ?_⟩
    · have hp := stableSorted_pairwise (valueSelector values) (fun _ _ => True) maxValue keys
        (pairwise_trivial keys)
      refine hp.imp ?_
      intro a b hab
      rcases hab with hlt | ⟨heq, _⟩
      · omega
      · omega
    · intro v
      exact stableSorted_filterDigit _ maxValue keys hb v
  · decide

/-- Witness for C2 at a concrete input. -/
theorem C2_count_sort_witness :
    ((∀ k ∈ ([0, 1, 2] : List Nat), (fun (vs : List Nat) k => vs.getD k 0) [5, 3, 5] k ≤ 9)
      ∧ ([0, 0, 0] : List Nat).length = ([0, 1, 2] : List Nat).length)
    ∧ ∃ out, CountSort ([5, 3, 5] : List Nat) (fun vs k => vs.getD k 0) 9 [0, 1, 2] [0, 0, 0]
          = (true, out)
        ∧ out.Perm [0, 1, 2]
        ∧ out.Pairwise (fun a b =>
            (fun (vs : List Nat) k => vs.getD k 0) [5, 3, 5] a
              ≤ (fun (vs : List Nat) k => vs.getD k 0) [5, 3, 5] b)
        ∧ ∀ v, out.filter (fun k => (fun (vs : List Nat) k => vs.getD k 0) [5, 3, 5] k == v)
            = ([0, 1, 2] : List Nat).filter
                (fun k => (fun (vs : List Nat) k => vs.getD k 0) [5, 3, 5] k == v) :=
  ⟨⟨by decide, by decide⟩,
    (C2_count_sort [5, 3, 5] (fun vs k => vs.getD k 0) 9 [0, 1, 2] [0, 0, 0]
      (by decide) (by decide)).1⟩

/-- C3: The claim states the carry returned by OffsetAndWrap equals the floor
division of (value - min + offset) by the span.  The code contradicts this (and its
own comment, which calls the carry the number of wraps performed) whenever
value - min + offset is a negative exact multiple of the span: at value 0,
offset -10, range [0, 9] it returns carry -2 where floor division gives -1 (a
single downward wrap).  The spec's own positive vectors do hold, and the bug is
reachable from the parser: subtracting 23:30 from 2000-01-10T00:00:00 lands on
day 8 instead of day 9. -/
theorem C3_offset_and_wrap_bug :
    OffsetAndWrap 0 (-10) 0 9 = (0, -2)
    ∧ Int.fdiv (0 - 0 + -10) 10 = -1
    ∧ OffsetAndWrap 8 (-10) 0 9 = (8, -1)
    ∧ OffsetAndWrap 10 24 1 12 = (10, 2)
    ∧ PopulateDateTimeFromIsoString ("2000-01-10T00:00:00-23:30".toList)
        = some ⟨2000, 1, 8, 0, 30, 0⟩ := by
  refine ⟨by decide, by decide, by decide, by decide, by decide⟩

/-- C4 counterexample: the claim says a `+hh:mm` designator makes the parser apply
the negated offset (subtract), but the code applies the offset as written: parsing
10:00:00+01:00 yields hour 11, not hour 9. -/
theorem C4_counterexample :
    PopulateDateTimeFromIsoString ("2000-01-01T10:00:00+01:00".toList)
        = some ⟨2000, 1, 1, 11, 0, 0⟩
    ∧ PopulateDateTimeFromIsoString ("2000-01-01T10:00:00+01:00".toList)
        ≠ some ⟨2000, 1, 1, 9, 0, 0⟩ := by
  refine ⟨by decide, by decide⟩

/-- C4 (amended): for every input whose timezone designator is `+hh:mm` the parser
applies the offset as written (+offset, adding hh hours and mm minutes through the
minute→hour→day→month→year carry chain) before the final validity check, and for
`-hh:mm` it applies the negated offset (-offset, subtracting hh hours and mm
minutes). -/
theorem C4_amended_sign_convention (dt : DateTime) (hv : IsDateTimeValid dt = true)
    (h m : Nat) (hh : h ≤ 23) (hm : m ≤ 59) :
    PopulateDateTimeFromIsoString (renderWithOffset dt '+' h m)
      = (if (OffsetDateTime dt (h : Int) (m : Int)).1
          then some (OffsetDateTime dt (h : Int) (m : Int)).2 else none)
    ∧ PopulateDateTimeFromIsoString (renderWithOffset dt '-' h m)
      = (if (OffsetDateTime dt (-(h : Int)) (-(m : Int))).1
          then some (OffsetDateTime dt (-(h : Int)) (-(m : Int))).2 else none) :=
  ⟨parse_renderOffset_plus dt hv h m hh hm, parse_renderOffset_minus dt hv h m hh hm⟩

/-- Witness for the amended C4 at the spec's worked example date. -/
theorem C4_amended_sign_convention_witness :
    (IsDateTimeValid ⟨2085, 9, 28, 8, 3, 29⟩ = true ∧ 12 ≤ 23 ∧ 30 ≤ 59)
    ∧ (PopulateDateTimeFromIsoString (renderWithOffset ⟨2085, 9, 28, 8, 3, 29⟩ '+' 12 30)
        = (if (OffsetDateTime ⟨2085, 9, 28, 8, 3, 29⟩ (12 : Int) (30 : Int)).1
            then some (OffsetDateTime ⟨2085, 9, 28, 8, 3, 29⟩ (12 : Int) (30 : Int)).2
            else none)
      ∧ PopulateDateTimeFromIsoString (renderWithOffset ⟨2085, 9, 28, 8, 3, 29⟩ '-' 12 30)
        = (if (OffsetDateTime ⟨2085, 9, 28, 8, 3, 29⟩ (-(12 : Int)) (-(30 : Int))).1
            then some (OffsetDateTime ⟨2085, 9, 28, 8, 3, 29⟩ (-(12 : Int)) (-(30 : Int))).2
            else none)) :=
  ⟨⟨by decide, by decide, by decide⟩,
    C4_amended_sign_convention ⟨2085, 9, 28, 8, 3, 29⟩ (by decide) 12 30 (by decide) (by decide)⟩

/-- C5: Parsing "2085-09-28T08:03:29+12:30" and "2085-09-28T22:53:29-02:20" both
succeed and both yield the DateTime 2085-09-28T20:33:29. -/
theorem C5_timezone_normalization :
    PopulateDateTimeFromIsoString ("2085-09-28T08:03:29+12:30".toList)
        = some ⟨2085, 9, 28, 20, 33, 29⟩
    ∧ PopulateDateTimeFromIsoString ("2085-09-28T22:53:29-02:20".toList)
        = some ⟨2085, 9, 28, 20, 33, 29⟩ := by
  refine ⟨by decide, by decide⟩

/-- C6: For every collection of valid DateTimes, DistinctDateTimes succeeds and
returns indices whose DateTimes are pairwise field-wise unequal, in ascending
composite-key order, with every DateTime value of the input represented by some
returned index (together with pairwise distinctness: exactly one index per
field-wise-equality class), and reports a count equal to the number of such
classes. -/
theorem C6_distinct_datetimes (dateTimes : List DateTime)
    (hv : ∀ x ∈ dateTimes, IsDateTimeValid x = true) :
    ∃ out, DistinctDateTimes dateTimes = some (out, out.length)
      ∧ out.Pairwise (fun i j =>
          dateTimes.getD i dtDefault ≠ dateTimes.getD j dtDefault)
      ∧ out.Pairwise (fun i j =>
          DateTimeLessThan (dateTimes.getD i dtDefault) (dateTimes.getD j dtDefault) = true)
      ∧ (∀ j, j < dateTimes.length →
          ∃ k ∈ out, dateTimes.getD k dtDefault = dateTimes.getD j dtDefault)
      ∧ out.length = dateTimes.toFinset.card := by
  obtain ⟨out, h1, h2, h3, h4, h5⟩ := DistinctDateTimes_spec dateTimes hv
  refine ⟨out, h1, ?_, h2, h3, h5⟩
  refine h2.imp ?_
  intro a b hab hcontra
  rw [hcontra] at hab
  exact DateTimeLessThan_irrefl _ hab

/-- Witness for C6 at a three-element collection with a duplicate. -/
theorem C6_distinct_datetimes_witness :
    (∀ x ∈ ([⟨1, 1, 1, 0, 0, 0⟩, ⟨0, 12, 31, 23, 59, 59⟩, ⟨1, 1, 1, 0, 0, 0⟩] :
        List DateTime), IsDateTimeValid x = true)
    ∧ ∃ out, DistinctDateTimes ([⟨1, 1, 1, 0, 0, 0⟩, ⟨0, 12, 31, 23, 59, 59⟩,
          ⟨1, 1, 1, 0, 0, 0⟩] : List DateTime) = some (out, out.length)
        ∧ out.Pairwise (fun i j =>
            ([⟨1, 1, 1, 0, 0, 0⟩, ⟨0, 12, 31, 23, 59, 59⟩,
              ⟨1, 1, 1, 0, 0, 0⟩] : List DateTime).getD i dtDefault
            ≠ ([⟨1, 1, 1, 0, 0, 0⟩, ⟨0, 12, 31, 23, 59, 59⟩,
              ⟨1, 1, 1, 0, 0, 0⟩] : List DateTime).getD j dtDefault)
        ∧ out.Pairwise (fun i j =>
            DateTimeLessThan
              (([⟨1, 1, 1, 0, 0, 0⟩, ⟨0, 12, 31, 23, 59, 59⟩,
                ⟨1, 1, 1, 0, 0, 0⟩] : List DateTime).getD i dtDefault)
              (([⟨1, 1, 1, 0, 0, 0⟩, ⟨0, 12, 31, 23, 59, 59⟩,
                ⟨1, 1, 1, 0, 0, 0⟩] : List DateTime).getD j dtDefault) = true)
        ∧ (∀ j, j < ([⟨1, 1, 1, 0, 0, 0⟩, ⟨0, 12, 31, 23, 59, 59⟩,
              ⟨1, 1, 1, 0, 0, 0⟩] : List DateTime).length →
            ∃ k ∈ out, ([⟨1, 1, 1, 0, 0, 0⟩, ⟨0, 12, 31, 23, 59, 59⟩,
                ⟨1, 1, 1, 0, 0, 0⟩] : List DateTime).getD k dtDefault
              = ([⟨1, 1, 1, 0, 0, 0⟩, ⟨0, 12, 31, 23, 59, 59⟩,
                ⟨1, 1, 1, 0, 0, 0⟩] : List DateTime).getD j dtDefault)
        ∧ out.length = ([⟨1, 1, 1, 0, 0, 0⟩, ⟨0, 12, 31, 23, 59, 59⟩,
            ⟨1, 1, 1, 0, 0, 0⟩] : List DateTime).toFinset.card :=
  ⟨by decide, C6_distinct_datetimes _ (by decide)⟩

/-- C7: For every valid DateTime d, rendering d as the zero-padded text
04d-02d-02dT02d:02d:02dZ and parsing that text succeeds and returns a DateTime
equal to d field by field. -/
theorem C7_round_trip (dateTime : DateTime) (hv : IsDateTimeValid dateTime = true) :
    PopulateDateTimeFromIsoString (renderDateTime dateTime) = some dateTime :=
  parse_renderDateTime dateTime hv

/-- Witness for C7 at the spec's example date. -/
theorem C7_round_trip_witness :
    IsDateTimeValid ⟨2085, 9, 28, 20, 33, 29⟩ = true
    ∧ PopulateDateTimeFromIsoString (renderDateTime ⟨2085, 9, 28, 20, 33, 29⟩)
        = some ⟨2085, 9, 28, 20, 33, 29⟩ :=
  ⟨by decide, C7_round_trip ⟨2085, 9, 28, 20, 33, 29⟩ (by decide)⟩

/-- C8: the parser fails returning no DateTime on the empty string, on any rendered
date-time text that ends after the seconds field with no timezone designator, and
on any string with a non-digit character at one of the fixed-width numeric field
positions (year 0-3, month 5-6, day 8-9, hour 11-12, minute 14-15, second 17-18). -/
theorem C8_parse_rejection :
    PopulateDateTimeFromIsoString [] = none
    ∧ (∀ dateTime : DateTime, IsDateTimeValid dateTime = true →
        PopulateDateTimeFromIsoString (renderDate dateTime) = none)
    ∧ (∀ (s : List Char) (p : Nat),
        p ∈ ([0, 1, 2, 3, 5, 6, 8, 9, 11, 12, 14, 15, 17, 18] : List Nat) →
        isDigitChar (charAt s p) = false →
        PopulateDateTimeFromIsoString s = none) := by
  refine ⟨by decide, fun dateTime hv => parse_renderDate_none dateTime hv, ?_⟩
  intro s p hp hnd
  cases hres : PopulateDateTimeFromIsoString s with
  | none => rfl
  | some dt =>
    have hdig := parse_success_digits s dt hres p hp
    simp [hnd] at hdig

/-- Witness for C8: a valid date rendered without a designator is rejected, and a
string with a letter inside the year field is rejected. -/
theorem C8_parse_rejection_witness :
    PopulateDateTimeFromIsoString (renderDate ⟨2085, 9, 28, 20, 33, 29⟩) = none
    ∧ PopulateDateTimeFromIsoString ("20x5-09-28T20:33:29Z".toList) = none :=
  ⟨C8_parse_rejection.2.1 ⟨2085, 9, 28, 20, 33, 29⟩ (by decide),
    C8_parse_rejection.2.2 ("20x5-09-28T20:33:29Z".toList) 2 (by decide) (by decide)⟩

/-- C9: CountSort reports an error and performs no placement (the caller's output
buffer is returned unchanged) whenever some given index's extracted digit exceeds
maxValue or a required input (the value collection or the key-extraction function,
modelled as an Option to mirror the C null check) is absent. -/
theorem C9_count_sort_errors {α : Type} (values : α) (valueSelector : α → Nat → Nat)
    (maxValue : Nat) (keys outKeys : List Nat) :
    ((∃ k ∈ keys, maxValue < valueSelector values k) →
        CountSort values valueSelector maxValue keys outKeys = (false, outKeys))
    ∧ CountSortC (none : Option α) (some valueSelector) maxValue keys outKeys
        = (false, outKeys)
    ∧ CountSortC (some values) (none : Option (α → Nat → Nat)) maxValue keys outKeys
        = (false, outKeys)
    ∧ ((∃ k ∈ keys, maxValue < valueSelector values k) →
        CountSortC (some values) (some valueSelector) maxValue keys outKeys
          = (false, outKeys)) := by
  refine ⟨fun hex => CountSort_fail values valueSelector maxValue keys outKeys hex,
    rfl, rfl, fun hex => ?_⟩
  show CountSort values valueSelector maxValue keys outKeys = (false, outKeys)
  exact CountSort_fail values valueSelector maxValue keys outKeys hex

/-- Witness for C9 at a concrete out-of-range digit. -/
theorem C9_count_sort_errors_witness :
    (∃ k ∈ ([0] : List Nat), 3 < (fun (vs : List Nat) k => vs.getD k 0) [5] k)
    ∧ CountSort ([5] : List Nat) (fun vs k => vs.getD k 0) 3 [0] [7] = (false, [7])
    ∧ CountSortC (none : Option (List Nat))
        (some fun (vs : List Nat) k => vs.getD k 0) 3 [0] [7] = (false, [7]) :=
  ⟨by decide,
    (C9_count_sort_errors [5] (fun vs k => vs.getD k 0) 3 [0] [7]).1 (by decide),
    (C9_count_sort_errors [5] (fun vs k => vs.getD k 0) 3 [0] [7]).2.1⟩

/-- C10 counterexample: parsing "9999-12-31T23:59:59+00:01" succeeds, but it yields
second 59, not the second 0 stated by the claim (the hour/minute offset never
touches the seconds field). -/
theorem C10_counterexample :
    PopulateDateTimeFromIsoString ("9999-12-31T23:59:59+00:01".toList)
        = some ⟨0, 1, 1, 0, 0, 59⟩
    ∧ PopulateDateTimeFromIsoString ("9999-12-31T23:59:59+00:01".toList)
        ≠ some ⟨0, 1, 1, 0, 0, 0⟩ := by
  refine ⟨by decide, by decide⟩

/-- C10 (amended): OffsetDateTime discards the carry produced when wrapping the
year field, so normalization crossing above year 9999 wraps the year modulo 10000
instead of failing: parsing "9999-12-31T23:59:59+00:01" succeeds and yields the
DateTime year 0, month 1, day 1, hour 0, minute 0, second 59. -/
theorem C10_year_wrap_amended :
    PopulateDateTimeFromIsoString ("9999-12-31T23:59:59+00:01".toList)
        = some ⟨0, 1, 1, 0, 0, 59⟩
    ∧ OffsetDateTime ⟨9999, 12, 31, 23, 59, 59⟩ 0 1 = (true, ⟨0, 1, 1, 0, 0, 59⟩) := by
  refine ⟨by decide, by decide⟩
